import Mathlib

/-!
# Verification of the Enso AST core (`common/rust/ast`)

Shallow embedding of the data model and operations of
`src/common/rust/ast/core/src/lib.rs` (and the conversions generated by
`src/common/rust/ast/macros/src/lib.rs`), together with proofs settling the
specification claims about them.

Embedding conventions:
* Rust `usize` values are embedded as `Nat` (all arithmetic in the source is
  addition/multiplication of small nonnegative quantities; the single
  subtraction, `TextUnclosed::span`, cannot underflow and is modelled by
  truncated `Nat` subtraction exactly as `usize` subtraction behaves when it
  does not underflow).
* `Rc<T>` is structural sharing of an immutable value and is embedded as `T`.
* `Uuid` (the node `ID`) is embedded as an opaque value type; only equality
  matters to the claims, so `Nat` serves as the carrier.
* Rust functions that can `panic!` (or fail an `assert!`) are embedded as
  `Except SpanError`-valued functions; the two distinct failure sites in the
  source are the two constructors of `SpanError`.
* In the source, `Shape<T>` is generic in the child type `T` but several
  fields mention the concrete node type `Ast`.  To untie the recursive knot
  the embedding adds a second parameter `A` standing for `Ast`; the source
  always instantiates `A := Ast`.
-/

namespace Enso

/-- Node identity. `pub type ID = Uuid`: an opaque 128-bit identity; only
equality is relevant, so the carrier is `Nat`. -/
abbrev ID := Nat

/-- `pub struct WrongEnum { pub expected_con: String }` — error raised by the
generated `TryFrom` conversions narrowing `Shape` to a variant type. -/
structure WrongEnum where
  expected_con : String
  deriving DecidableEq, Repr

/-- `pub struct Tree<K,V>` — node with an optional value and an ordered list
of `(key, subtree)` branches. -/
inductive Tree (K V : Type) where
  | mk (value : Option V) (branches : List (K × Tree K V))

/-- `pub struct Shifted<T>` — a value annotated with a preceding offset. -/
structure Shifted (T : Type) where
  wrapped : T
  off : Nat

/-- `pub struct ShiftedVec1<T>` — non-empty sequence of `T`s interspersed by
offsets. -/
structure ShiftedVec1 (T : Type) where
  head : T
  tail : List (Shifted T)

/-- `#[ast_node] pub struct Unit{}` — the unit type used as the value type of
ambiguity trees. -/
structure Unit where
  deriving DecidableEq, Repr

-- ===============
-- === Builder ===
-- ===============

/-- `Empty` variant struct of `Builder`. -/
structure Empty where
  deriving DecidableEq, Repr

/-- `Letter{char: char}` variant struct of `Builder`. -/
structure Letter where
  char : Char
  deriving DecidableEq, Repr

/-- `Space{span: usize}` variant struct of `Builder`. -/
structure Space where
  span : Nat
  deriving DecidableEq, Repr

/-- `Text{str: String}` variant struct of `Builder`. -/
structure Text where
  str : String
  deriving DecidableEq, Repr

mutual

/-- `#[ast(flat)] pub enum Builder` — literal/space span accumulator. -/
inductive Builder where
  | Empty (v : Empty)
  | Letter (v : Letter)
  | Space (v : Space)
  | Text (v : Text)
  | Seq (v : Seq)

/-- `Seq{first: Rc<Builder>, second: Rc<Builder>}` variant struct of
`Builder`. -/
inductive Seq where
  | mk (first : Builder) (second : Builder)

end

/-- Projection for the `first` field of `Seq`. -/
def Seq.first : Seq → Builder
  | .mk f _ => f

/-- Projection for the `second` field of `Seq`. -/
def Seq.second : Seq → Builder
  | .mk _ s => s

-- ============
-- === Text ===
-- ============

/-- `Unfinished { }` variant struct of `RawEscape`. -/
structure Unfinished where
  deriving DecidableEq, Repr

/-- `Invalid { str: char }` variant struct of `RawEscape`. -/
structure Invalid where
  str : Char
  deriving DecidableEq, Repr

/-- `Slash { }` variant struct of `RawEscape`. -/
structure Slash where
  deriving DecidableEq, Repr

/-- `Quote { }` variant struct of `RawEscape`. -/
structure Quote where
  deriving DecidableEq, Repr

/-- `RawQuote { }` variant struct of `RawEscape`. -/
structure RawQuote where
  deriving DecidableEq, Repr

/-- `#[ast(flat)] pub enum RawEscape`. -/
inductive RawEscape where
  | Unfinished (v : Unfinished)
  | Invalid (v : Invalid)
  | Slash (v : Slash)
  | Quote (v : Quote)
  | RawQuote (v : RawQuote)
  deriving DecidableEq, Repr

/-- `#[ast_node] pub enum Escape` — escape codes of formatted text segments
(plain enum: `ast_node` does not extract variant structs). -/
inductive Escape where
  | Character (c : Char)
  | Control (name : String) (code : Nat)
  | Number (digits : String)
  | Unicode16 (digits : String)
  | Unicode21 (digits : String)
  | Unicode32 (digits : String)
  deriving DecidableEq, Repr

/-- `#[ast_node] pub struct SegmentPlain { pub value: String }`. -/
structure SegmentPlain where
  value : String
  deriving DecidableEq, Repr

/-- `#[ast_node] pub struct SegmentRawEscape { pub code: RawEscape }`. -/
structure SegmentRawEscape where
  code : RawEscape
  deriving DecidableEq, Repr

/-- `#[ast(flat)] pub enum SegmentRaw`. -/
inductive SegmentRaw where
  | SegmentPlain (v : SegmentPlain)
  | SegmentRawEscape (v : SegmentRawEscape)
  deriving DecidableEq, Repr

/-- `#[ast_node] pub struct SegmentExpr<T> { pub value: Option<T> }`. -/
structure SegmentExpr (T : Type) where
  value : Option T

/-- `#[ast_node] pub struct SegmentEscape { pub code: Escape }`. -/
structure SegmentEscape where
  code : Escape
  deriving DecidableEq, Repr

/-- `#[ast(flat)] pub enum SegmentFmt<T>`. -/
inductive SegmentFmt (T : Type) where
  | SegmentPlain (v : SegmentPlain)
  | SegmentRawEscape (v : SegmentRawEscape)
  | SegmentExpr (v : SegmentExpr T)
  | SegmentEscape (v : SegmentEscape)

/-- `#[ast] pub struct TextBlockLine<T>` — one line of a text block. -/
structure TextBlockLine (T : Type) where
  empty_lines : List Nat
  text : List T
  deriving DecidableEq, Repr

-- =============
-- === Block ===
-- =============

/-- `#[ast_node] pub enum BlockType { Continuous { } , Discontinuous { } }`. -/
inductive BlockType where
  | Continuous
  | Discontinuous
  deriving DecidableEq, Repr

/-- `#[ast] pub struct BlockLine<T> { pub elem: T, pub off: usize }`. -/
structure BlockLine (T : Type) where
  elem : T
  off : Nat

-- =============
-- === Macro ===
-- =============

/-- `pub type Spaced = Option<bool>` — whether a token-class pattern requires
a preceding space. -/
abbrev Spaced := Option Bool

/-- `#[ast] pub enum PatternClass { Normal, Pattern }`. -/
inductive PatternClass where
  | Normal
  | Pattern
  deriving DecidableEq, Repr

/-- `pub enum Either<L,R> { Left{value: L}, Right{value: R} }`. -/
inductive Either (L R : Type) where
  | Left (value : L)
  | Right (value : R)

/-- `pub type Switch<T> = Either<T,T>`. -/
abbrev Switch (T : Type) := Either T T

/-- `Begin { }` variant struct of `MacroPatternRaw`. -/
structure MacroPatternRawBegin where
  deriving DecidableEq, Repr

/-- `End { }` variant struct of `MacroPatternRaw`. -/
structure MacroPatternRawEnd where
  deriving DecidableEq, Repr

/-- `Nothing { }` variant struct of `MacroPatternRaw`. -/
structure MacroPatternRawNothing where
  deriving DecidableEq, Repr

/-- `Tok { spaced: Spaced, ast: Ast }` variant struct of `MacroPatternRaw`.
`A` stands for the concrete node type `Ast`. -/
structure MacroPatternRawTok (A : Type) where
  spaced : Spaced
  ast : A

/-- `Blank { spaced: Spaced }` variant struct of `MacroPatternRaw`. -/
structure MacroPatternRawBlank where
  spaced : Spaced
  deriving DecidableEq, Repr

/-- `Var { spaced: Spaced }` variant struct of `MacroPatternRaw`. -/
structure MacroPatternRawVar where
  spaced : Spaced
  deriving DecidableEq, Repr

/-- `Cons { spaced: Spaced }` variant struct of `MacroPatternRaw`. -/
structure MacroPatternRawCons where
  spaced : Spaced
  deriving DecidableEq, Repr

/-- `Opr { spaced: Spaced, max_prec: Option<usize> }` variant struct of
`MacroPatternRaw`.  The source field name `max_prec` is a reserved token in
Lean, so the field is spelled `maxPrec`. -/
structure MacroPatternRawOpr where
  spaced : Spaced
  maxPrec : Option Nat
  deriving DecidableEq, Repr

/-- `Mod { spaced: Spaced }` variant struct of `MacroPatternRaw`. -/
structure MacroPatternRawMod where
  spaced : Spaced
  deriving DecidableEq, Repr

/-- `Num { spaced: Spaced }` variant struct of `MacroPatternRaw`. -/
structure MacroPatternRawNum where
  spaced : Spaced
  deriving DecidableEq, Repr

/-- `Text { spaced: Spaced }` variant struct of `MacroPatternRaw`. -/
structure MacroPatternRawText where
  spaced : Spaced
  deriving DecidableEq, Repr

/-- `Block { spaced: Spaced }` variant struct of `MacroPatternRaw`. -/
structure MacroPatternRawBlock where
  spaced : Spaced
  deriving DecidableEq, Repr

/-- `Macro { spaced: Spaced }` variant struct of `MacroPatternRaw`. -/
structure MacroPatternRawMacro where
  spaced : Spaced
  deriving DecidableEq, Repr

/-- `Invalid { spaced: Spaced }` variant struct of `MacroPatternRaw`. -/
structure MacroPatternRawInvalid where
  spaced : Spaced
  deriving DecidableEq, Repr

mutual

/-- `#[ast] pub enum MacroPatternRaw` — the macro pattern grammar.  In the
source the children are `MacroPattern = Rc<MacroPatternRaw>`; `Rc` is
embedded transparently.  `A` stands for the concrete node type `Ast`
(the `Tok` leaf carries a node). -/
inductive MacroPatternRaw (A : Type) where
  | Begin (v : MacroPatternRawBegin)
  | End (v : MacroPatternRawEnd)
  | Nothing (v : MacroPatternRawNothing)
  | Seq (v : MacroPatternRawSeq A)
  | Or (v : MacroPatternRawOr A)
  | Many (v : MacroPatternRawMany A)
  | Except (v : MacroPatternRawExcept A)
  | Build (v : MacroPatternRawBuild A)
  | Err (v : MacroPatternRawErr A)
  | Tag (v : MacroPatternRawTag A)
  | Cls (v : MacroPatternRawCls A)
  | Tok (v : MacroPatternRawTok A)
  | Blank (v : MacroPatternRawBlank)
  | Var (v : MacroPatternRawVar)
  | Cons (v : MacroPatternRawCons)
  | Opr (v : MacroPatternRawOpr)
  | Mod (v : MacroPatternRawMod)
  | Num (v : MacroPatternRawNum)
  | Text (v : MacroPatternRawText)
  | Block (v : MacroPatternRawBlock)
  | Macro (v : MacroPatternRawMacro)
  | Invalid (v : MacroPatternRawInvalid)

/-- `Seq { pat1: MacroPattern, pat2: MacroPattern }` variant struct. -/
inductive MacroPatternRawSeq (A : Type) where
  | mk (pat1 : MacroPatternRaw A) (pat2 : MacroPatternRaw A)

/-- `Or { pat1: MacroPattern, pat2: MacroPattern }` variant struct. -/
inductive MacroPatternRawOr (A : Type) where
  | mk (pat1 : MacroPatternRaw A) (pat2 : MacroPatternRaw A)

/-- `Many { pat: MacroPattern }` variant struct. -/
inductive MacroPatternRawMany (A : Type) where
  | mk (pat : MacroPatternRaw A)

/-- `Except { not: MacroPattern, pat: MacroPattern }` variant struct. -/
inductive MacroPatternRawExcept (A : Type) where
  | mk (not : MacroPatternRaw A) (pat : MacroPatternRaw A)

/-- `Build { pat: MacroPattern }` variant struct. -/
inductive MacroPatternRawBuild (A : Type) where
  | mk (pat : MacroPatternRaw A)

/-- `Err { msg: String, pat: MacroPattern }` variant struct. -/
inductive MacroPatternRawErr (A : Type) where
  | mk (msg : String) (pat : MacroPatternRaw A)

/-- `Tag { tag: String, pat: MacroPattern }` variant struct. -/
inductive MacroPatternRawTag (A : Type) where
  | mk (tag : String) (pat : MacroPatternRaw A)

/-- `Cls { cls: PatternClass, pat: MacroPattern }` variant struct. -/
inductive MacroPatternRawCls (A : Type) where
  | mk (cls : PatternClass) (pat : MacroPatternRaw A)

end

/-- `#[ast] pub enum MacroPatternMatchRaw<T>` — match result mirroring the
grammar.  Each constructor carries the grammar node that produced it (`pat`)
and the captured payload (`elem`), with exactly the field types of the
source; the per-variant wrapper structs generated by `to_variant_types` are
flattened into constructor arguments.  In the source the recursive positions
are `MacroPatternMatch<T> = Rc<MacroPatternMatchRaw<T>>`. -/
inductive MacroPatternMatchRaw (A T : Type) where
  | Begin (pat : MacroPatternRawBegin)
  | End (pat : MacroPatternRawEnd)
  | Nothing (pat : MacroPatternRawNothing)
  | Seq (pat : MacroPatternRawSeq A)
      (elem : MacroPatternMatchRaw A T × MacroPatternMatchRaw A T)
  | Or (pat : MacroPatternRawOr A)
      (elem : Either (MacroPatternMatchRaw A T) (MacroPatternMatchRaw A T))
  | Many (pat : MacroPatternRawMany A) (elem : List (MacroPatternMatchRaw A T))
  | Except (pat : MacroPatternRawExcept A) (elem : MacroPatternMatchRaw A T)
  | Build (pat : MacroPatternRawBuild A) (elem : T)
  | Err (pat : MacroPatternRawErr A) (elem : T)
  | Tag (pat : MacroPatternRawTag A) (elem : MacroPatternMatchRaw A T)
  | Cls (pat : MacroPatternRawCls A) (elem : MacroPatternMatchRaw A T)
  | Tok (pat : MacroPatternRawTok A) (elem : T)
  | Blank (pat : MacroPatternRawBlank) (elem : T)
  | Var (pat : MacroPatternRawVar) (elem : T)
  | Cons (pat : MacroPatternRawCons) (elem : T)
  | Opr (pat : MacroPatternRawOpr) (elem : T)
  | Mod (pat : MacroPatternRawMod) (elem : T)
  | Num (pat : MacroPatternRawNum) (elem : T)
  | Text (pat : MacroPatternRawText) (elem : T)
  | Block (pat : MacroPatternRawBlock) (elem : T)
  | Macro (pat : MacroPatternRawMacro) (elem : T)
  | Invalid (pat : MacroPatternRawInvalid) (elem : T)

/-- `pub type MacroPatternMatch<T> = Rc<MacroPatternMatchRaw<T>>`. -/
abbrev MacroPatternMatch (A T : Type) := MacroPatternMatchRaw A T

/-- `#[ast] pub struct MacroMatchSegment<T> { pub head: Ast, pub body:
MacroPatternMatch<Shifted<T>> }`. -/
structure MacroMatchSegment (A T : Type) where
  head : A
  body : MacroPatternMatchRaw A (Shifted T)

/-- `#[ast] pub struct MacroAmbiguousSegment { pub head: Ast, pub body:
Option<Shifted<Ast>> }`. -/
structure MacroAmbiguousSegment (A : Type) where
  head : A
  body : Option (Shifted A)

-- ============================
-- === Shape variant structs ===
-- ============================

/-- `Unrecognized { str: String }` variant struct of `Shape`. -/
structure Unrecognized where
  str : String
  deriving DecidableEq, Repr

/-- `InvalidQuote { quote: Builder }` variant struct of `Shape`. -/
structure InvalidQuote where
  quote : Builder

/-- `InlineBlock { quote: Builder }` variant struct of `Shape`. -/
structure InlineBlock where
  quote : Builder

/-- `Blank { }` variant struct of `Shape`. -/
structure Blank where
  deriving DecidableEq, Repr

/-- `Var { name: String }` variant struct of `Shape`. -/
structure Var where
  name : String
  deriving DecidableEq, Repr

/-- `Cons { name: String }` variant struct of `Shape`. -/
structure Cons where
  name : String
  deriving DecidableEq, Repr

/-- `Opr { name: String }` variant struct of `Shape`. -/
structure Opr where
  name : String
  deriving DecidableEq, Repr

/-- `Mod { name: String }` variant struct of `Shape`. -/
structure Mod where
  name : String
  deriving DecidableEq, Repr

/-- `InvalidSuffix { elem: T, suffix: String }` variant struct of `Shape`. -/
structure InvalidSuffix (T : Type) where
  elem : T
  suffix : String

/-- `Number { base: Option<String>, int: String }` variant struct of
`Shape`. -/
structure Number where
  base : Option String
  int : String
  deriving DecidableEq, Repr

/-- `DanglingBase { base: String }` variant struct of `Shape`. -/
structure DanglingBase where
  base : String
  deriving DecidableEq, Repr

/-- `TextLineRaw { text: Vec<SegmentRaw> }` variant struct of `Shape`. -/
structure TextLineRaw where
  text : List SegmentRaw
  deriving DecidableEq, Repr

/-- `TextLineFmt { text: Vec<SegmentFmt<T>> }` variant struct of `Shape`. -/
structure TextLineFmt (T : Type) where
  text : List (SegmentFmt T)

/-- `TextBlockRaw` variant struct of `Shape`. -/
structure TextBlockRaw where
  text : List (TextBlockLine SegmentRaw)
  spaces : Nat
  offset : Nat
  deriving DecidableEq, Repr

/-- `TextBlockFmt` variant struct of `Shape`. -/
structure TextBlockFmt (T : Type) where
  text : List (TextBlockLine (SegmentFmt T))
  spaces : Nat
  offset : Nat

/-- `#[ast(flat)] pub enum TextLine<T>` — a raw or formatted text line. -/
inductive TextLine (T : Type) where
  | TextLineRaw (v : TextLineRaw)
  | TextLineFmt (v : TextLineFmt T)

/-- `TextUnclosed { line: TextLine<T> }` variant struct of `Shape`. -/
structure TextUnclosed (T : Type) where
  line : TextLine T

/-- `Prefix { func: T, off: usize, arg: T }` variant struct of `Shape`. -/
structure Prefix (T : Type) where
  func : T
  off : Nat
  arg : T

/-- `Infix { larg: T, loff: usize, opr: T, roff: usize, rarg: T }` variant
struct of `Shape`. -/
structure Infix (T : Type) where
  larg : T
  loff : Nat
  opr : T
  roff : Nat
  rarg : T

/-- `SectionLeft { arg: T, off: usize, opr: T }` variant struct of `Shape`. -/
structure SectionLeft (T : Type) where
  arg : T
  off : Nat
  opr : T

/-- `SectionRight { opr: T, off: usize, arg: T }` variant struct of
`Shape`. -/
structure SectionRight (T : Type) where
  opr : T
  off : Nat
  arg : T

/-- `SectionSides { opr: T }` variant struct of `Shape`. -/
structure SectionSides (T : Type) where
  opr : T

/-- `Module { lines: Vec<BlockLine<Option<T>>> }` variant struct of
`Shape`. -/
structure Module (T : Type) where
  lines : List (BlockLine (Option T))

/-- `Block` variant struct of `Shape`. -/
structure Block (T : Type) where
  ty : BlockType
  indent : Nat
  empty_lines : List Nat
  first_line : BlockLine T
  lines : List (BlockLine (Option T))
  is_orphan : Bool

/-- `Match` variant struct of `Shape`; `A` stands for the concrete node type
`Ast` appearing in `pfx : Option<MacroPatternMatch<Shifted<Ast>>>`, the
segment heads and `resolved : Ast`. -/
structure Match (A T : Type) where
  pfx : Option (MacroPatternMatchRaw A (Shifted A))
  segs : ShiftedVec1 (MacroMatchSegment A T)
  resolved : A

/-- `Ambiguous` variant struct of `Shape`. -/
structure Ambiguous (A : Type) where
  segs : ShiftedVec1 (MacroAmbiguousSegment A)
  paths : Tree A Unit

/-- `#[ast] pub struct Comment { pub lines: Vec<String> }`. -/
structure Comment where
  lines : List String
  deriving DecidableEq, Repr

/-- `#[ast] pub struct Import<T> { pub path: Vec<T> }`. -/
structure Import (T : Type) where
  path : List T

/-- `#[ast] pub struct Mixfix<T> { pub name: Vec<T>, pub args: Vec<T> }`. -/
structure Mixfix (T : Type) where
  name : List T
  args : List T

/-- `#[ast] pub struct Group<T> { pub body: Option<T> }`. -/
structure Group (T : Type) where
  body : Option T

/-- `#[ast] pub struct Def<T>` — name, arguments and optional body. -/
structure Def (T : Type) where
  name : T
  args : List T
  body : Option T

/-- `#[ast] pub struct Foreign` — foreign code block. -/
structure Foreign where
  indent : Nat
  lang : String
  code : List String
  deriving DecidableEq, Repr

-- =============
-- === Shape ===
-- =============

/-- `#[ast(flat)] pub enum Shape<T>` — the closed sum of node shapes,
parametrized by the child node type `T`.  `A` stands for the concrete node
type `Ast` that the `Match`/`Ambiguous` variants mention directly in the
source (there `A = Ast` always). -/
inductive Shape (A T : Type) where
  | Unrecognized (v : Unrecognized)
  | InvalidQuote (v : InvalidQuote)
  | InlineBlock (v : InlineBlock)
  | Blank (v : Blank)
  | Var (v : Var)
  | Cons (v : Cons)
  | Opr (v : Opr)
  | Mod (v : Mod)
  | InvalidSuffix (v : InvalidSuffix T)
  | Number (v : Number)
  | DanglingBase (v : DanglingBase)
  | TextLineRaw (v : TextLineRaw)
  | TextLineFmt (v : TextLineFmt T)
  | TextBlockRaw (v : TextBlockRaw)
  | TextBlockFmt (v : TextBlockFmt T)
  | TextUnclosed (v : TextUnclosed T)
  | Prefix (v : Prefix T)
  | Infix (v : Infix T)
  | SectionLeft (v : SectionLeft T)
  | SectionRight (v : SectionRight T)
  | SectionSides (v : SectionSides T)
  | Module (v : Module T)
  | Block (v : Block T)
  | Match (v : Match A T)
  | Ambiguous (v : Ambiguous A)
  | Comment (v : Comment)
  | Import (v : Import T)
  | Mixfix (v : Mixfix T)
  | Group (v : Group T)
  | Def (v : Def T)
  | Foreign (v : Foreign)

-- ===========
-- === Ast ===
-- ===========

/-- `pub struct WithSpan<T>` — a value with its cached span. -/
structure WithSpan (T : Type) where
  wrapped : T
  span : Nat

/-- `pub struct WithID<T>` — a value with its optional identity. -/
structure WithID (T : Type) where
  wrapped : T
  id : Option ID

set_option maxHeartbeats 8000000 in
/-- `pub struct Ast { pub wrapped: Rc<WithID<WithSpan<Shape<Ast>>>> }` —
the immutable node type: a shape wrapped with a cached span and an optional
identity (`Rc` embedded transparently). -/
inductive Ast where
  | mk (wrapped : WithID (WithSpan (Shape Ast Ast)))

/-- Unfold the single constructor of `Ast`. -/
def Ast.unwrap : Ast → WithID (WithSpan (Shape Ast Ast))
  | .mk w => w

/-- `Ast::shape` — read-only view of the shape. -/
def Ast.shape (a : Ast) : Shape Ast Ast := a.unwrap.wrapped.wrapped

/-- The cached `span` field of a node (the Rust field access `ast.span`,
via the shrinkwrap derefs `WithID → WithSpan`). -/
def Ast.spanData (a : Ast) : Nat := a.unwrap.wrapped.span

/-- The `id` field of a node (the Rust field access `ast.id`). -/
def Ast.idData (a : Ast) : Option ID := a.unwrap.id

-- ====================
-- === Span algebra ===
-- ====================

/-- `impl HasSpan for char` — every char counts as one code point. -/
def charSpan (_ : Char) : Nat := 1

/-- `impl HasSpan for String`/`&str` — `self.chars().count()`, the number of
unicode code points, which is `String.length`. -/
def stringSpan (s : String) : Nat := s.length

/-- `impl<T: HasSpan> HasSpan for Option<T>` — `map_or(0, span)`. -/
def optSpan (f : α → Nat) : Option α → Nat
  | none => 0
  | some x => f x

/-- `impl<T: HasSpan> HasSpan for Vec<T>` — sum of element spans. -/
def listSpan (f : α → Nat) (l : List α) : Nat := (l.map f).sum

/-- `impl Blank { const REPR:char = '_'; }`. -/
def Blank.REPR : Char := Char.ofNat 95

/-- `impl Number { const BASE_SEPARATOR:char = '_'; }`. -/
def Number.BASE_SEPARATOR : Char := Char.ofNat 95

/-- `const RAW_QUOTE:char = '\''`. -/
def RAW_QUOTE : Char := Char.ofNat 39

/-- `const FMT_QUOTE:char = '"'`. -/
def FMT_QUOTE : Char := Char.ofNat 34

/-- `const NEWLINE:char = '\n'`. -/
def NEWLINE : Char := Char.ofNat 10

/-- `const BACKSLASH:char = '\\'`. -/
def BACKSLASH : Char := Char.ofNat 92

/-- `const EXPR_QUOTE:char` — the backtick enclosing expression segments. -/
def EXPR_QUOTE : Char := Char.ofNat 96

/-- `const UNICODE16_INTRODUCER:char = 'u'`. -/
def UNICODE16_INTRODUCER : Char := Char.ofNat 117

/-- `const UNICODE21_OPENER:&str = "u\x7b"` (`u` followed by an opening
brace). -/
def UNICODE21_OPENER : String := String.mk [Char.ofNat 117, Char.ofNat 123]

/-- `const UNICODE21_CLOSER:&str` — the closing brace. -/
def UNICODE21_CLOSER : String := String.mk [Char.ofNat 125]

/-- `const UNICODE32_INTRODUCER:char = 'U'`. -/
def UNICODE32_INTRODUCER : Char := Char.ofNat 85

/-- `impl TextBlockRaw { const QUOTE = "\"\"\""; }`. -/
def TextBlockRaw.QUOTE : String := String.mk [FMT_QUOTE, FMT_QUOTE, FMT_QUOTE]

/-- `impl<T> TextBlockFmt<T> { const QUOTE = "'''"; }`. -/
def TextBlockFmt.QUOTE : String := String.mk [RAW_QUOTE, RAW_QUOTE, RAW_QUOTE]

-- === Builder spans ===

/-- `impl HasSpan for Empty` — span 0. -/
def Empty.span (_ : Empty) : Nat := 0

/-- `impl HasSpan for Letter` — span of the stored char. -/
def Letter.span (v : Letter) : Nat := charSpan v.char

-- `impl HasSpan for Space` returns the `span` field, which is exactly the
-- structure projection `Space.span`.

/-- `impl HasSpan for Text` — span of the stored string. -/
def Text.span (v : Text) : Nat := stringSpan v.str

mutual

/-- `impl HasSpan for Builder` — dispatch to the variant spans. -/
def Builder.span : Builder → Nat
  | .Empty v => Empty.span v
  | .Letter v => Letter.span v
  | .Space v => v.span
  | .Text v => Text.span v
  | .Seq v => Seq.span v

/-- `impl HasSpan for Seq` — `first.span() + second.span()`. -/
def Seq.span : Seq → Nat
  | .mk first second => Builder.span first + Builder.span second

end

-- === Escape spans ===

/-- `impl HasSpan for Unfinished` — span 0. -/
def Unfinished.span (_ : Unfinished) : Nat := 0

/-- `impl HasSpan for Invalid` — span of the stored char. -/
def Invalid.span (v : Invalid) : Nat := charSpan v.str

/-- `impl HasSpan for Slash` — span 1. -/
def Slash.span (_ : Slash) : Nat := 1

/-- `impl HasSpan for Quote` — span 1. -/
def Quote.span (_ : Quote) : Nat := 1

/-- `impl HasSpan for RawQuote` — span 1. -/
def RawQuote.span (_ : RawQuote) : Nat := 1

/-- `impl HasSpan for RawEscape` — dispatch to the variant spans. -/
def RawEscape.span : RawEscape → Nat
  | .Unfinished v => Unfinished.span v
  | .Invalid v => Invalid.span v
  | .Slash v => Slash.span v
  | .Quote v => Quote.span v
  | .RawQuote v => RawQuote.span v

/-- `impl HasSpan for Escape` — introducer width plus digit/name length. -/
def Escape.span : Escape → Nat
  | .Character c => charSpan c
  | .Control name _ => stringSpan name
  | .Number digits => stringSpan digits
  | .Unicode16 digits => charSpan UNICODE16_INTRODUCER + stringSpan digits
  | .Unicode21 digits =>
      stringSpan UNICODE21_OPENER + stringSpan digits
        + stringSpan UNICODE21_CLOSER
  | .Unicode32 digits => charSpan UNICODE32_INTRODUCER + stringSpan digits

-- === Text segment spans (raw, non-recursive) ===

/-- `impl HasSpan for SegmentPlain` — span of the value. -/
def SegmentPlain.span (v : SegmentPlain) : Nat := stringSpan v.value

/-- `impl HasSpan for SegmentRawEscape` — `code.span() + BACKSLASH.span()`. -/
def SegmentRawEscape.span (v : SegmentRawEscape) : Nat :=
  RawEscape.span v.code + charSpan BACKSLASH

/-- `impl HasSpan for SegmentRaw` — dispatch. -/
def SegmentRaw.span : SegmentRaw → Nat
  | .SegmentPlain v => SegmentPlain.span v
  | .SegmentRawEscape v => SegmentRawEscape.span v

/-- `impl HasSpan for SegmentEscape` — `BACKSLASH.span() + code.span()`. -/
def SegmentEscape.span (v : SegmentEscape) : Nat :=
  charSpan BACKSLASH + Escape.span v.code

/-- `TextBlockLine::span(&self, block_offset)` — not a `HasSpan` instance in
the source because it needs the parent block's offset. -/
def TextBlockLine.span (f : α → Nat) (line : TextBlockLine α)
    (block_offset : Nat) : Nat :=
  let line_count := line.empty_lines.length + 1
  let empty_lines_space := line.empty_lines.sum
  let line_breaks := line_count * charSpan NEWLINE
  empty_lines_space + line_breaks + block_offset + listSpan f line.text

-- === Identifier, number and raw-text shape spans (non-recursive) ===

/-- `impl HasSpan for Unrecognized`. -/
def Unrecognized.span (v : Unrecognized) : Nat := stringSpan v.str

/-- `impl HasSpan for InvalidQuote`. -/
def InvalidQuote.span (v : InvalidQuote) : Nat := Builder.span v.quote

/-- `impl HasSpan for InlineBlock`. -/
def InlineBlock.span (v : InlineBlock) : Nat := Builder.span v.quote

/-- `impl HasSpan for Blank` — `Blank::REPR.span()`, one code point. -/
def Blank.span (_ : Blank) : Nat := charSpan Blank.REPR

/-- `impl HasSpan for Var` — length of the name. -/
def Var.span (v : Var) : Nat := stringSpan v.name

/-- `impl HasSpan for Cons` — length of the name. -/
def Cons.span (v : Cons) : Nat := stringSpan v.name

/-- `impl HasSpan for Opr` — length of the name. -/
def Opr.span (v : Opr) : Nat := stringSpan v.name

/-- `impl HasSpan for Mod` — `self.name.span() + 1 // FIXME` in the
source: one more than the length of the name. -/
def Mod.span (v : Mod) : Nat := stringSpan v.name + 1

/-- `impl HasSpan for Number` — optional base plus separator, plus digits. -/
def Number.span (v : Number) : Nat :=
  let base_span := match v.base with
    | some base => stringSpan base + charSpan Number.BASE_SEPARATOR
    | none => 0
  base_span + stringSpan v.int

/-- `impl HasSpan for DanglingBase` — base plus separator. -/
def DanglingBase.span (v : DanglingBase) : Nat :=
  stringSpan v.base + charSpan Number.BASE_SEPARATOR

/-- `impl HasSpan for TextLineRaw` — `2 * RAW_QUOTE.span() + text.span()`. -/
def TextLineRaw.span (v : TextLineRaw) : Nat :=
  2 * charSpan RAW_QUOTE + listSpan SegmentRaw.span v.text

/-- `impl HasSpan for TextBlockRaw` — quote marker, leading spaces, and the
per-line spans at the block's offset. -/
def TextBlockRaw.span (v : TextBlockRaw) : Nat :=
  stringSpan TextBlockRaw.QUOTE + v.spaces
    + (v.text.map (fun line => TextBlockLine.span SegmentRaw.span line v.offset)).sum

-- === Recursive spans over Ast ===

/-- Failure modes of span computation.  The Rust `span` methods return
`usize` but can abort: the catch-all arm of `Shape::span` runs
`panic!("not implemented {}")` (`notImplemented`), and `Module::span` runs
`assert!(self.lines.len() > 0)` (`assertFailed`).  The embedding surfaces
both as `Except` errors. -/
inductive SpanError where
  | notImplemented
  | assertFailed
  deriving DecidableEq, Repr

mutual

/-- `impl HasSpan for Ast` — `self.wrapped.span()`.  Because the `HasSpan`
impl for `WithSpan` is commented out in the source, the method call resolves
through the shrinkwrap derefs down to `Shape::span`: the span is recomputed
from the shape, not read from the cached field. -/
def Ast.spanE : Ast → Except SpanError Nat
  | .mk ⟨⟨s, _⟩, _⟩ => Shape.spanE s
termination_by a => sizeOf a

/-- `impl<T: HasSpan> HasSpan for Shape<T>` — dispatch; the missing arms
(`Match`, `Ambiguous` and the spaceless shapes) hit
`_ => panic!("not implemented {}")`. -/
def Shape.spanE : Shape Ast Ast → Except SpanError Nat
  | .Unrecognized v => pure (Unrecognized.span v)
  | .InvalidQuote v => pure (InvalidQuote.span v)
  | .InlineBlock v => pure (InlineBlock.span v)
  | .Blank v => pure (Blank.span v)
  | .Var v => pure (Var.span v)
  | .Cons v => pure (Cons.span v)
  | .Opr v => pure (Opr.span v)
  | .Mod v => pure (Mod.span v)
  | .InvalidSuffix v => InvalidSuffix.spanE v
  | .Number v => pure (Number.span v)
  | .DanglingBase v => pure (DanglingBase.span v)
  | .TextLineRaw v => pure (TextLineRaw.span v)
  | .TextLineFmt v => TextLineFmt.spanE v
  | .TextBlockRaw v => pure (TextBlockRaw.span v)
  | .TextBlockFmt v => TextBlockFmt.spanE v
  | .TextUnclosed v => TextUnclosed.spanE v
  | .Prefix v => Prefix.spanE v
  | .Infix v => Infix.spanE v
  | .SectionLeft v => SectionLeft.spanE v
  | .SectionRight v => SectionRight.spanE v
  | .SectionSides v => SectionSides.spanE v
  | .Module v => Module.spanE v
  | .Block v => Block.spanE v
  | .Match _ => throw .notImplemented
  | .Ambiguous _ => throw .notImplemented
  | .Comment _ => throw .notImplemented
  | .Import _ => throw .notImplemented
  | .Mixfix _ => throw .notImplemented
  | .Group _ => throw .notImplemented
  | .Def _ => throw .notImplemented
  | .Foreign _ => throw .notImplemented
termination_by s => sizeOf s

/-- `impl<T: HasSpan> HasSpan for InvalidSuffix<T>` — elem plus suffix. -/
def InvalidSuffix.spanE : InvalidSuffix Ast → Except SpanError Nat
  | .mk elem suffix => do
      pure ((← Ast.spanE elem) + stringSpan suffix)
termination_by v => sizeOf v

/-- `impl<T: HasSpan> HasSpan for SegmentExpr<T>` — inner span plus the two
enclosing backticks. -/
def SegmentExpr.spanE : SegmentExpr Ast → Except SpanError Nat
  | .mk value => do
      pure ((← optAstSpanE value) + 2 * charSpan EXPR_QUOTE)
termination_by v => sizeOf v

/-- `impl<T: HasSpan> HasSpan for SegmentFmt<T>` — dispatch. -/
def SegmentFmt.spanE : SegmentFmt Ast → Except SpanError Nat
  | .SegmentPlain v => pure (SegmentPlain.span v)
  | .SegmentRawEscape v => pure (SegmentRawEscape.span v)
  | .SegmentExpr v => SegmentExpr.spanE v
  | .SegmentEscape v => pure (SegmentEscape.span v)
termination_by v => sizeOf v

/-- `Vec<SegmentFmt<Ast>>` span — left-to-right sum. -/
def listSegmentFmtSpanE : List (SegmentFmt Ast) → Except SpanError Nat
  | [] => pure 0
  | s :: rest => do
      pure ((← SegmentFmt.spanE s) + (← listSegmentFmtSpanE rest))
termination_by l => sizeOf l

/-- `impl<T: HasSpan> HasSpan for TextLineFmt<T>` — two quotes plus segment
spans. -/
def TextLineFmt.spanE : TextLineFmt Ast → Except SpanError Nat
  | .mk text => do
      pure (2 * charSpan FMT_QUOTE + (← listSegmentFmtSpanE text))
termination_by v => sizeOf v

/-- `impl<T: HasSpan> HasSpan for TextLine<T>` — dispatch. -/
def TextLine.spanE : TextLine Ast → Except SpanError Nat
  | .TextLineRaw v => pure (TextLineRaw.span v)
  | .TextLineFmt v => TextLineFmt.spanE v
termination_by v => sizeOf v

/-- `impl<T: HasSpan> HasSpan for TextUnclosed<T>` —
`self.line.span() - 1 // FIXME`. -/
def TextUnclosed.spanE : TextUnclosed Ast → Except SpanError Nat
  | .mk line => do
      pure ((← TextLine.spanE line) - 1)
termination_by v => sizeOf v

/-- `TextBlockLine<SegmentFmt<Ast>>::span(&self, block_offset)`. -/
def TextBlockLine.spanFmtE (line : TextBlockLine (SegmentFmt Ast))
    (block_offset : Nat) : Except SpanError Nat :=
  match line with
  | .mk empty_lines text => do
      let line_count := empty_lines.length + 1
      let empty_lines_space := empty_lines.sum
      let line_breaks := line_count * charSpan NEWLINE
      pure (empty_lines_space + line_breaks + block_offset
        + (← listSegmentFmtSpanE text))
termination_by sizeOf line

/-- Sum of `TextBlockLine` spans at a fixed block offset. -/
def listTextBlockLineFmtSpanE (block_offset : Nat) :
    List (TextBlockLine (SegmentFmt Ast)) → Except SpanError Nat
  | [] => pure 0
  | line :: rest => do
      pure ((← TextBlockLine.spanFmtE line block_offset)
        + (← listTextBlockLineFmtSpanE block_offset rest))
termination_by l => sizeOf l

/-- `impl<T: HasSpan> HasSpan for TextBlockFmt<T>` — quote marker, leading
spaces, per-line spans. -/
def TextBlockFmt.spanE : TextBlockFmt Ast → Except SpanError Nat
  | .mk text spaces offset => do
      pure (stringSpan TextBlockFmt.QUOTE + spaces
        + (← listTextBlockLineFmtSpanE offset text))
termination_by v => sizeOf v

/-- `impl<T: HasSpan> HasSpan for Prefix<T>` — func + off + arg. -/
def Prefix.spanE : Prefix Ast → Except SpanError Nat
  | .mk func off arg => do
      pure ((← Ast.spanE func) + off + (← Ast.spanE arg))
termination_by v => sizeOf v

/-- `impl<T: HasSpan> HasSpan for Infix<T>` — larg + loff + opr + roff +
rarg. -/
def Infix.spanE : Infix Ast → Except SpanError Nat
  | .mk larg loff opr roff rarg => do
      pure ((← Ast.spanE larg) + loff + (← Ast.spanE opr) + roff
        + (← Ast.spanE rarg))
termination_by v => sizeOf v

/-- `impl<T: HasSpan> HasSpan for SectionLeft<T>` — arg + off + opr. -/
def SectionLeft.spanE : SectionLeft Ast → Except SpanError Nat
  | .mk arg off opr => do
      pure ((← Ast.spanE arg) + off + (← Ast.spanE opr))
termination_by v => sizeOf v

/-- `impl<T: HasSpan> HasSpan for SectionRight<T>` — opr + off + arg. -/
def SectionRight.spanE : SectionRight Ast → Except SpanError Nat
  | .mk opr off arg => do
      pure ((← Ast.spanE opr) + off + (← Ast.spanE arg))
termination_by v => sizeOf v

/-- `impl<T: HasSpan> HasSpan for SectionSides<T>` — just the operator. -/
def SectionSides.spanE : SectionSides Ast → Except SpanError Nat
  | .mk opr => Ast.spanE opr
termination_by v => sizeOf v

/-- `impl<T: HasSpan> HasSpan for BlockLine<T>` — `elem.span() + off`. -/
def BlockLine.spanE : BlockLine Ast → Except SpanError Nat
  | .mk elem off => do
      pure ((← Ast.spanE elem) + off)
termination_by v => sizeOf v

/-- `BlockLine<Option<Ast>>` span — `elem.span() + off` with the `Option`
span rule. -/
def BlockLine.spanOptE : BlockLine (Option Ast) → Except SpanError Nat
  | .mk elem off => do
      pure ((← optAstSpanE elem) + off)
termination_by v => sizeOf v

/-- `Option<Ast>` span — `map_or(0, span)`, propagating failure. -/
def optAstSpanE : Option Ast → Except SpanError Nat
  | none => pure 0
  | some a => Ast.spanE a
termination_by o => sizeOf o

/-- `Vec<BlockLine<Option<Ast>>>` span — left-to-right sum. -/
def listBlockLineOptSpanE : List (BlockLine (Option Ast)) →
    Except SpanError Nat
  | [] => pure 0
  | line :: rest => do
      pure ((← BlockLine.spanOptE line) + (← listBlockLineOptSpanE rest))
termination_by l => sizeOf l

/-- `impl<T: HasSpan> HasSpan for Module<T>` — `assert!(lines.len() > 0)`,
then line spans plus one newline per line break. -/
def Module.spanE : Module Ast → Except SpanError Nat
  | .mk lines =>
      if lines.length > 0 then do
        let break_count := lines.length - 1
        let breaks_span := break_count * charSpan NEWLINE
        let lines_span ← listBlockLineOptSpanE lines
        pure (lines_span + breaks_span)
      else throw .assertFailed
termination_by v => sizeOf v

/-- The per-line closure of `Block::span`: one newline, the block's indent
when the line is non-empty, then the line span. -/
def blockLinesSpanE (indent : Nat) : List (BlockLine (Option Ast)) →
    Except SpanError Nat
  | [] => pure 0
  | line :: rest => do
      let line_indent := match line.elem with
        | some _ => indent
        | none => 0
      let here := charSpan NEWLINE + line_indent + (← BlockLine.spanOptE line)
      pure (here + (← blockLinesSpanE indent rest))
termination_by l => sizeOf l

/-- `impl<T: HasSpan> HasSpan for Block<T>`. -/
def Block.spanE : Block Ast → Except SpanError Nat
  | .mk _ty indent empty_lines first_line lines is_orphan => do
      let head_span := if is_orphan then 0 else 1
      let empty : Nat := (empty_lines.map (fun line => line + 1)).sum
      let first ← BlockLine.spanE first_line
      let first_line_span := indent + first
      let rest ← blockLinesSpanE indent lines
      pure (head_span + empty + first_line_span + rest)
termination_by v => sizeOf v

end

/-- `impl<T: HasSpan> HasSpan for MacroPatternMatchRaw<T>` — constantly 0
(the commented-out compositional formula is not live code). -/
def MacroPatternMatchRaw.span (_ : MacroPatternMatchRaw A T) : Nat := 0

-- ====================
-- === Constructors ===
-- ====================

/-- `Ast::new_with_span(shape, id, span)` — wraps a shape with a
caller-supplied span and an optional id, without recomputing the span. -/
def Ast.newWithSpan (shape : Shape Ast Ast) (id : Option ID) (span : Nat) :
    Ast :=
  .mk ⟨⟨shape, span⟩, id⟩

/-- `Ast::new(shape, id)` — computes the span from the shape (which can
panic, surfaced here as `Except`), then wraps via `new_with_span`. -/
def Ast.new (shape : Shape Ast Ast) (id : Option ID) :
    Except SpanError Ast := do
  let span ← Shape.spanE shape
  pure (Ast.newWithSpan shape id span)

/-- `impl<T: Into<Shape<Ast>>> From<T> for Ast` — conversion with identity
defaulted to `None`: `Ast::new(t, None)`. -/
def Ast.fromShape (shape : Shape Ast Ast) : Except SpanError Ast :=
  Ast.new shape none

/-- `Ast::var(name)` — the `Var` smart constructor (`Ast::from(Var{name})`).
For a `Var` the span computation cannot fail, and the successful result is
exactly this node. -/
def Ast.var (name : String) : Except SpanError Ast :=
  Ast.fromShape (.Var ⟨name⟩)

-- =====================
-- === Wire encoding ===
-- =====================

namespace ast_schema

/-- `pub const SHAPE: &str = "shape"`. -/
def SHAPE : String := "shape"

/-- `pub const ID: &str = "id"`. -/
def ID : String := "id"

/-- `pub const SPAN: &str = "span"`. -/
def SPAN : String := "span"

/-- `pub const FIELDS: [&str; 3] = [SHAPE, ID, SPAN]`. -/
def FIELDS : List String := [SHAPE, ID, SPAN]

end ast_schema

/-- Modelled from the spec: the wire value stored under one key of the
encoded JSON object.  The codec for the `shape` field is derived code
(serde's `Serialize`/`Deserialize` derive, not part of these sources); the
spec fixes it to be a faithful, lossless tagged encoding keyed by variant
name, so the model carries the `Shape` itself as the wire form of that
field.  An `id` value carries `Option ID` (JSON `null` decodes to `none`),
a `span` value carries a number. -/
inductive WireValue where
  | shapeVal (s : Shape Ast Ast)
  | idVal (i : Option ID)
  | spanVal (n : Nat)

/-- A JSON object payload: the ordered key/value entries seen by serde's
map visitor. -/
abbrev WireObject := List (String × WireValue)

/-- Decoding failures: serde's `Error::missing_field` (the structured
missing-field error raised for an absent `shape`/`span`) and the error of a
typed `next_value` call finding a value of the wrong type. -/
inductive DecodeError where
  | missingField (field : String)
  | invalidType (field : String)
  deriving DecidableEq, Repr

/-- `impl Serialize for Ast` — an object with the `shape` field, the `id`
field only when the identity is present, and the `span` field. -/
def Ast.serialize (a : Ast) : WireObject :=
  [(ast_schema.SHAPE, WireValue.shapeVal a.shape)]
    ++ (if (a.idData).isSome
        then [(ast_schema.ID, WireValue.idVal a.idData)] else [])
    ++ [(ast_schema.SPAN, WireValue.spanVal a.spanData)]

/-- The key loop of `AstDeserializationVisitor::visit_map`: walk the
entries in order, recording the last value seen for each known key
(`next_value` on a wrongly-typed value fails), ignoring unknown keys. -/
def visitMapLoop : WireObject → Option (Shape Ast Ast) →
    Option (Option ID) → Option Nat →
    Except DecodeError (Option (Shape Ast Ast) × Option (Option ID) × Option Nat)
  | [], shape, id, span => pure (shape, id, span)
  | (k, v) :: rest, shape, id, span =>
    if k = ast_schema.SHAPE then
      match v with
      | .shapeVal s => visitMapLoop rest (some s) id span
      | _ => throw (.invalidType k)
    else if k = ast_schema.ID then
      match v with
      | .idVal i => visitMapLoop rest shape (some i) span
      | _ => throw (.invalidType k)
    else if k = ast_schema.SPAN then
      match v with
      | .spanVal n => visitMapLoop rest shape id (some n)
      | _ => throw (.invalidType k)
    else
      visitMapLoop rest shape id span

/-- `AstDeserializationVisitor::visit_map` (the body of
`impl Deserialize for Ast`): requires `shape` and `span`, tolerates a
missing `id` (`id.unwrap_or(None)`), and builds the node with
`Ast::new_with_span(shape, id, span)`. -/
def Ast.deserialize (entries : WireObject) : Except DecodeError Ast := do
  let (shape?, id?, span?) ← visitMapLoop entries none none none
  let shape ← match shape? with
    | some s => pure s
    | none => throw (.missingField ast_schema.SHAPE)
  let id := id?.getD none
  let span ← match span? with
    | some n => pure n
    | none => throw (.missingField ast_schema.SPAN)
  pure (Ast.newWithSpan shape id span)

-- =================
-- === Traversal ===
-- =================

mutual

/-- Modelled from the spec: the child iterator of a pattern match, yielding
the captured `T` payloads in left-to-right field order (the derived
`Iterator` of `shapely` is generated outside these sources). -/
def MacroPatternMatchRaw.elems : MacroPatternMatchRaw A T → List T
  | .Begin _ => []
  | .End _ => []
  | .Nothing _ => []
  | .Seq _ (m1, m2) => m1.elems ++ m2.elems
  | .Or _ (.Left m) => m.elems
  | .Or _ (.Right m) => m.elems
  | .Many _ ms => MacroPatternMatchRaw.elemsList ms
  | .Except _ m => m.elems
  | .Build _ e => [e]
  | .Err _ e => [e]
  | .Tag _ m => m.elems
  | .Cls _ m => m.elems
  | .Tok _ e => [e]
  | .Blank _ e => [e]
  | .Var _ e => [e]
  | .Cons _ e => [e]
  | .Opr _ e => [e]
  | .Mod _ e => [e]
  | .Num _ e => [e]
  | .Text _ e => [e]
  | .Block _ e => [e]
  | .Macro _ e => [e]
  | .Invalid _ e => [e]

/-- Concatenated payloads of a list of matches. -/
def MacroPatternMatchRaw.elemsList : List (MacroPatternMatchRaw A T) → List T
  | [] => []
  | m :: rest => m.elems ++ MacroPatternMatchRaw.elemsList rest

end

/-- Modelled from the spec: child nodes of a formatted segment — the
embedded expression, if any. -/
def SegmentFmt.childNodes : SegmentFmt T → List T
  | .SegmentExpr v => v.value.toList
  | _ => []

/-- Modelled from the spec: child nodes of a text line. -/
def TextLine.childNodes : TextLine T → List T
  | .TextLineRaw _ => []
  | .TextLineFmt v => v.text.flatMap SegmentFmt.childNodes

/-- Modelled from the spec: child nodes of a macro match segment — the
captured nodes of its body, in order. -/
def MacroMatchSegment.childNodes (seg : MacroMatchSegment A T) : List T :=
  (MacroPatternMatchRaw.elems seg.body).map (fun sh => sh.wrapped)

/-- Modelled from the spec: the derived child iterator of a shape
(`#[derive(Iterator)]` on `Shape<T>`, generated outside these sources) —
the `T`-typed child nodes in natural left-to-right field order. -/
def Shape.childNodes : Shape A T → List T
  | .Unrecognized _ => []
  | .InvalidQuote _ => []
  | .InlineBlock _ => []
  | .Blank _ => []
  | .Var _ => []
  | .Cons _ => []
  | .Opr _ => []
  | .Mod _ => []
  | .InvalidSuffix v => [v.elem]
  | .Number _ => []
  | .DanglingBase _ => []
  | .TextLineRaw _ => []
  | .TextLineFmt v => v.text.flatMap SegmentFmt.childNodes
  | .TextBlockRaw _ => []
  | .TextBlockFmt v =>
      v.text.flatMap (fun line => line.text.flatMap SegmentFmt.childNodes)
  | .TextUnclosed v => TextLine.childNodes v.line
  | .Prefix v => [v.func, v.arg]
  | .Infix v => [v.larg, v.opr, v.rarg]
  | .SectionLeft v => [v.arg, v.opr]
  | .SectionRight v => [v.opr, v.arg]
  | .SectionSides v => [v.opr]
  | .Module v => v.lines.flatMap (fun line => line.elem.toList)
  | .Block v =>
      v.first_line.elem :: v.lines.flatMap (fun line => line.elem.toList)
  | .Match v =>
      MacroMatchSegment.childNodes v.segs.head
        ++ v.segs.tail.flatMap (fun s => MacroMatchSegment.childNodes s.wrapped)
  | .Ambiguous _ => []
  | .Comment _ => []
  | .Import v => v.path
  | .Mixfix v => v.name ++ v.args
  | .Group v => v.body.toList
  | .Def v => v.name :: (v.args ++ v.body.toList)
  | .Foreign _ => []

/-- `impl IntoIterator for &Ast` — iteration over the shape's children. -/
def Ast.children (a : Ast) : List Ast := Shape.childNodes a.shape

-- === Termination bookkeeping for the stack-based traversal ===

/-- Combined `sizeOf` of a list's elements (the traversal's stack measure). -/
def sizeSum [SizeOf α] (l : List α) : Nat := (l.map sizeOf).sum

@[simp]
theorem sizeSum_nil [SizeOf α] : sizeSum ([] : List α) = 0 := rfl

@[simp]
theorem sizeSum_cons [SizeOf α] (x : α) (l : List α) :
    sizeSum (x :: l) = sizeOf x + sizeSum l := rfl

@[simp]
theorem sizeSum_append [SizeOf α] (l1 l2 : List α) :
    sizeSum (l1 ++ l2) = sizeSum l1 + sizeSum l2 := by
  induction l1 with
  | nil => simp
  | cons x xs ih => simp [ih]; omega

@[simp]
theorem sizeSum_reverse [SizeOf α] (l : List α) :
    sizeSum l.reverse = sizeSum l := by
  induction l with
  | nil => rfl
  | cons x xs ih => simp [ih]; omega

theorem le_sizeSum_of_mem [SizeOf α] {l : List α} {x : α} (h : x ∈ l) :
    sizeOf x ≤ sizeSum l := by
  induction l with
  | nil => cases h
  | cons y ys ih =>
      rcases List.mem_cons.mp h with rfl | h
      · simp
      · have := ih h
        simp
        omega

theorem sizeSum_flatMap_le [SizeOf α] [SizeOf β] (f : α → List β)
    (l : List α) (h : ∀ x ∈ l, sizeSum (f x) ≤ sizeOf x) :
    sizeSum (l.flatMap f) ≤ sizeOf l := by
  induction l with
  | nil => simp [sizeSum]
  | cons x xs ih =>
      have hx := h x (List.mem_cons_self x xs)
      have hxs := ih (fun y hy => h y (List.mem_cons_of_mem x hy))
      simp only [List.flatMap_cons, sizeSum_append, List.cons.sizeOf_spec]
      omega

theorem sizeSum_map_le [SizeOf α] [SizeOf β] (g : α → β) (l : List α)
    (h : ∀ x ∈ l, sizeOf (g x) ≤ sizeOf x) :
    sizeSum (l.map g) ≤ sizeSum l := by
  induction l with
  | nil => simp
  | cons x xs ih =>
      have hx := h x (List.mem_cons_self x xs)
      have hxs := ih (fun y hy => h y (List.mem_cons_of_mem x hy))
      simp
      omega

theorem sizeSum_toList_le [SizeOf α] (o : Option α) :
    sizeSum o.toList ≤ sizeOf o := by
  cases o <;> simp [sizeSum]

mutual

theorem sizeSum_elems_le [SizeOf A] [SizeOf T]
    (m : MacroPatternMatchRaw A T) :
    sizeSum (MacroPatternMatchRaw.elems m) ≤ sizeOf m := by
  cases m with
  | Begin p => simp [MacroPatternMatchRaw.elems]
  | End p => simp [MacroPatternMatchRaw.elems]
  | Nothing p => simp [MacroPatternMatchRaw.elems]
  | Seq p e =>
      obtain ⟨m1, m2⟩ := e
      have h1 := sizeSum_elems_le m1
      have h2 := sizeSum_elems_le m2
      simp [MacroPatternMatchRaw.elems]
      omega
  | Or p e =>
      cases e with
      | Left mm =>
          have h := sizeSum_elems_le mm
          simp [MacroPatternMatchRaw.elems]
          omega
      | Right mm =>
          have h := sizeSum_elems_le mm
          simp [MacroPatternMatchRaw.elems]
          omega
  | Many p ms =>
      have h := sizeSum_elemsList_le ms
      simp [MacroPatternMatchRaw.elems]
      omega
  | Except p mm =>
      have h := sizeSum_elems_le mm
      simp [MacroPatternMatchRaw.elems]
      omega
  | Build p e => simp [MacroPatternMatchRaw.elems, sizeSum]
  | Err p e => simp [MacroPatternMatchRaw.elems, sizeSum]
  | Tag p mm =>
      have h := sizeSum_elems_le mm
      simp [MacroPatternMatchRaw.elems]
      omega
  | Cls p mm =>
      have h := sizeSum_elems_le mm
      simp [MacroPatternMatchRaw.elems]
      omega
  | Tok p e => simp [MacroPatternMatchRaw.elems, sizeSum]
  | Blank p e => simp [MacroPatternMatchRaw.elems, sizeSum]
  | Var p e => simp [MacroPatternMatchRaw.elems, sizeSum]
  | Cons p e => simp [MacroPatternMatchRaw.elems, sizeSum]
  | Opr p e => simp [MacroPatternMatchRaw.elems, sizeSum]
  | Mod p e => simp [MacroPatternMatchRaw.elems, sizeSum]
  | Num p e => simp [MacroPatternMatchRaw.elems, sizeSum]
  | Text p e => simp [MacroPatternMatchRaw.elems, sizeSum]
  | Block p e => simp [MacroPatternMatchRaw.elems, sizeSum]
  | Macro p e => simp [MacroPatternMatchRaw.elems, sizeSum]
  | Invalid p e => simp [MacroPatternMatchRaw.elems, sizeSum]
termination_by sizeOf m

theorem sizeSum_elemsList_le [SizeOf A] [SizeOf T]
    (l : List (MacroPatternMatchRaw A T)) :
    sizeSum (MacroPatternMatchRaw.elemsList l) ≤ sizeOf l := by
  cases l with
  | nil => simp [MacroPatternMatchRaw.elemsList]
  | cons m rest =>
      have h1 := sizeSum_elems_le m
      have h2 := sizeSum_elemsList_le rest
      simp [MacroPatternMatchRaw.elemsList]
      omega
termination_by sizeOf l

end

theorem sizeSum_le_sizeOf_list [SizeOf α] (l : List α) :
    sizeSum l ≤ sizeOf l := by
  induction l with
  | nil => simp [sizeSum]
  | cons x xs ih => simp; omega

theorem sizeSum_segmentFmt_childNodes_le [SizeOf T] (sf : SegmentFmt T) :
    sizeSum (SegmentFmt.childNodes sf) ≤ sizeOf sf := by
  cases sf with
  | SegmentExpr v =>
      obtain ⟨value⟩ := v
      have := sizeSum_toList_le value
      simp [SegmentFmt.childNodes]
      omega
  | SegmentPlain v => simp [SegmentFmt.childNodes, sizeSum]
  | SegmentRawEscape v => simp [SegmentFmt.childNodes, sizeSum]
  | SegmentEscape v => simp [SegmentFmt.childNodes, sizeSum]

theorem sizeSum_textBlockLine_childNodes_le [SizeOf T]
    (line : TextBlockLine (SegmentFmt T)) :
    sizeSum (line.text.flatMap SegmentFmt.childNodes) ≤ sizeOf line := by
  obtain ⟨empty_lines, text⟩ := line
  have h := sizeSum_flatMap_le SegmentFmt.childNodes text
    (fun sf _ => sizeSum_segmentFmt_childNodes_le sf)
  simp
  omega

theorem sizeSum_textLine_childNodes_le [SizeOf T] (tl : TextLine T) :
    sizeSum (TextLine.childNodes tl) ≤ sizeOf tl := by
  cases tl with
  | TextLineRaw v => simp [TextLine.childNodes, sizeSum]
  | TextLineFmt v =>
      obtain ⟨text⟩ := v
      have h := sizeSum_flatMap_le SegmentFmt.childNodes text
        (fun sf _ => sizeSum_segmentFmt_childNodes_le sf)
      simp [TextLine.childNodes]
      omega

theorem sizeSum_blockLine_toList_le [SizeOf T] (line : BlockLine (Option T)) :
    sizeSum line.elem.toList ≤ sizeOf line := by
  obtain ⟨elem, off⟩ := line
  have := sizeSum_toList_le elem
  simp
  omega

theorem sizeSum_macroMatchSegment_lt [SizeOf A] [SizeOf T]
    (seg : MacroMatchSegment A T) :
    sizeSum (MacroMatchSegment.childNodes seg) < sizeOf seg := by
  obtain ⟨head, body⟩ := seg
  have h1 := sizeSum_map_le (fun sh : Shifted T => sh.wrapped)
    (MacroPatternMatchRaw.elems body)
    (by
      intro sh _
      obtain ⟨w, o⟩ := sh
      simp
      omega)
  have h2 := sizeSum_elems_le body
  simp [MacroMatchSegment.childNodes] at h1 ⊢
  omega

theorem sizeSum_shape_childNodes_lt [SizeOf A] [SizeOf T] (s : Shape A T) :
    sizeSum (Shape.childNodes s) < sizeOf s := by
  cases s with
  | InvalidSuffix v =>
      obtain ⟨elem, suffix⟩ := v
      simp [Shape.childNodes, sizeSum]
      omega
  | TextLineFmt v =>
      obtain ⟨text⟩ := v
      have h := sizeSum_flatMap_le SegmentFmt.childNodes text
        (fun sf _ => sizeSum_segmentFmt_childNodes_le sf)
      simp [Shape.childNodes]
      omega
  | TextBlockFmt v =>
      obtain ⟨text, spaces, offset⟩ := v
      have h := sizeSum_flatMap_le
        (fun line : TextBlockLine (SegmentFmt T) =>
          line.text.flatMap SegmentFmt.childNodes) text
        (fun line _ => sizeSum_textBlockLine_childNodes_le line)
      simp [Shape.childNodes]
      omega
  | TextUnclosed v =>
      obtain ⟨line⟩ := v
      have := sizeSum_textLine_childNodes_le line
      simp [Shape.childNodes]
      omega
  | Prefix v =>
      obtain ⟨func, off, arg⟩ := v
      simp [Shape.childNodes, sizeSum]
      omega
  | Infix v =>
      obtain ⟨larg, loff, opr, roff, rarg⟩ := v
      simp [Shape.childNodes, sizeSum]
      omega
  | SectionLeft v =>
      obtain ⟨arg, off, opr⟩ := v
      simp [Shape.childNodes, sizeSum]
      omega
  | SectionRight v =>
      obtain ⟨opr, off, arg⟩ := v
      simp [Shape.childNodes, sizeSum]
      omega
  | SectionSides v =>
      obtain ⟨opr⟩ := v
      simp [Shape.childNodes, sizeSum]
      omega
  | Module v =>
      obtain ⟨lines⟩ := v
      have h := sizeSum_flatMap_le
        (fun line : BlockLine (Option T) => line.elem.toList) lines
        (fun line _ => sizeSum_blockLine_toList_le line)
      simp [Shape.childNodes]
      omega
  | Block v =>
      obtain ⟨ty, indent, empty_lines, first_line, lines, is_orphan⟩ := v
      obtain ⟨felem, foff⟩ := first_line
      have h := sizeSum_flatMap_le
        (fun line : BlockLine (Option T) => line.elem.toList) lines
        (fun line _ => sizeSum_blockLine_toList_le line)
      simp [Shape.childNodes]
      omega
  | Match v =>
      obtain ⟨pfx, segs, resolved⟩ := v
      obtain ⟨head, tail⟩ := segs
      have h1 := sizeSum_macroMatchSegment_lt head
      have h2 := sizeSum_flatMap_le
        (fun sh : Shifted (MacroMatchSegment A T) =>
          MacroMatchSegment.childNodes sh.wrapped) tail
        (by
          intro sh _
          obtain ⟨w, o⟩ := sh
          have := sizeSum_macroMatchSegment_lt w
          simp
          omega)
      simp [Shape.childNodes]
      omega
  | Import v =>
      obtain ⟨path⟩ := v
      have := sizeSum_le_sizeOf_list path
      simp [Shape.childNodes]
      omega
  | Mixfix v =>
      obtain ⟨name, args⟩ := v
      have h1 := sizeSum_le_sizeOf_list name
      have h2 := sizeSum_le_sizeOf_list args
      simp [Shape.childNodes]
      omega
  | Group v =>
      obtain ⟨body⟩ := v
      have := sizeSum_toList_le body
      simp [Shape.childNodes]
      omega
  | Def v =>
      obtain ⟨name, args, body⟩ := v
      have h1 := sizeSum_le_sizeOf_list args
      have h2 := sizeSum_toList_le body
      simp [Shape.childNodes]
      omega
  | Unrecognized v => simp [Shape.childNodes, sizeSum]
  | InvalidQuote v => simp [Shape.childNodes, sizeSum]
  | InlineBlock v => simp [Shape.childNodes, sizeSum]
  | Blank v => simp [Shape.childNodes, sizeSum]
  | Var v => simp [Shape.childNodes, sizeSum]
  | Cons v => simp [Shape.childNodes, sizeSum]
  | Opr v => simp [Shape.childNodes, sizeSum]
  | Mod v => simp [Shape.childNodes, sizeSum]
  | Number v => simp [Shape.childNodes, sizeSum]
  | DanglingBase v => simp [Shape.childNodes, sizeSum]
  | TextLineRaw v => simp [Shape.childNodes, sizeSum]
  | TextBlockRaw v => simp [Shape.childNodes, sizeSum]
  | Ambiguous v => simp [Shape.childNodes, sizeSum]
  | Comment v => simp [Shape.childNodes, sizeSum]
  | Foreign v => simp [Shape.childNodes, sizeSum]

theorem sizeSum_children_lt (a : Ast) :
    sizeSum (Ast.children a) < sizeOf a := by
  obtain ⟨w⟩ := a
  obtain ⟨ws, i⟩ := w
  obtain ⟨s, sp⟩ := ws
  have := sizeSum_shape_childNodes_lt s
  simp [Ast.children, Ast.shape, Ast.unwrap]
  omega

-- === The stack-based traversal ===

/-- `pub fn iterate_subtree<T>(ast: T)` — DFS of the subtree, including the
root.  Rust keeps pending nodes in a `Vec` used as a stack: `pop` removes
the vector's last element, and the current node's children are pushed
left-to-right at the end before the node is yielded.  The embedding keeps
the same stack with the list head as top, so pushing appends the reversed
children at the front; the function returns the entire yielded sequence
(the generator is lazy but finite). -/
def iterateSubtreeLoop : List Ast → List Ast
  | [] => []
  | a :: rest => a :: iterateSubtreeLoop ((Ast.children a).reverse ++ rest)
termination_by stack => sizeSum stack
decreasing_by
  have := sizeSum_children_lt a
  simp
  omega

/-- `iterate_subtree(ast)` — the loop started on the single-element stack. -/
def iterateSubtree (ast : Ast) : List Ast := iterateSubtreeLoop [ast]

/-- `Ast::traverse` — `iterate_subtree(self)`. -/
def Ast.traverse (a : Ast) : List Ast := iterateSubtree a

-- === Reference traversals (for stating the claims) ===

theorem Ast.sizeOf_pos (a : Ast) : 0 < sizeOf a := by
  obtain ⟨w⟩ := a
  simp

mutual

/-- Depth-first pre-order with children taken right-to-left (the mirrored
pre-order): the order the stack traversal actually produces. -/
def Ast.preorderMirror (a : Ast) : List Ast :=
  a :: preorderMirrorList (Ast.children a).reverse
termination_by 2 * sizeOf a
decreasing_by
  have := sizeSum_children_lt a
  simp
  omega

/-- Concatenated mirrored pre-orders of a list of roots. -/
def preorderMirrorList : List Ast → List Ast
  | [] => []
  | a :: rest => Ast.preorderMirror a ++ preorderMirrorList rest
termination_by l => 2 * sizeSum l + 1
decreasing_by
  all_goals have := Ast.sizeOf_pos a
  all_goals simp
  all_goals omega

end

mutual

/-- All nodes of the subtree in natural (left-to-right) pre-order: the
order the spec describes. -/
def Ast.preorderNatural (a : Ast) : List Ast :=
  a :: preorderNaturalList (Ast.children a)
termination_by 2 * sizeOf a
decreasing_by
  have := sizeSum_children_lt a
  omega

/-- Concatenated natural pre-orders of a list of roots. -/
def preorderNaturalList : List Ast → List Ast
  | [] => []
  | a :: rest => Ast.preorderNatural a ++ preorderNaturalList rest
termination_by l => 2 * sizeSum l + 1
decreasing_by
  all_goals have := Ast.sizeOf_pos a
  all_goals simp
  all_goals omega

end

-- ==========================================
-- === Generated variant <-> sum conversions ===
-- ==========================================

-- The `to_variant_types` proc macro generates, for every `Shape` variant,
-- a total `From<Variant> for Shape` impl (widening) and a fallible
-- `TryFrom<Shape> for Variant` impl (narrowing) that fails with
-- `WrongEnum { expected_con: "<Variant>" }` when the sum holds a different
-- constructor.  The pairs below mirror `gen_from_impls` verbatim.

/-- Generated `From<Unrecognized> for Shape` — total widening. -/
def Unrecognized.into (t : Unrecognized) : Shape A T := Shape.Unrecognized t

/-- Generated `TryFrom<Shape> for Unrecognized` — narrowing, with the wrong-variant
error carrying the expected constructor name. -/
def Unrecognized.tryFrom : Shape A T → Except WrongEnum (Unrecognized)
  | .Unrecognized elem => .ok elem
  | _ => .error ⟨"Unrecognized"⟩

/-- Generated `From<InvalidQuote> for Shape` — total widening. -/
def InvalidQuote.into (t : InvalidQuote) : Shape A T := Shape.InvalidQuote t

/-- Generated `TryFrom<Shape> for InvalidQuote` — narrowing, with the wrong-variant
error carrying the expected constructor name. -/
def InvalidQuote.tryFrom : Shape A T → Except WrongEnum (InvalidQuote)
  | .InvalidQuote elem => .ok elem
  | _ => .error ⟨"InvalidQuote"⟩

/-- Generated `From<InlineBlock> for Shape` — total widening. -/
def InlineBlock.into (t : InlineBlock) : Shape A T := Shape.InlineBlock t

/-- Generated `TryFrom<Shape> for InlineBlock` — narrowing, with the wrong-variant
error carrying the expected constructor name. -/
def InlineBlock.tryFrom : Shape A T → Except WrongEnum (InlineBlock)
  | .InlineBlock elem => .ok elem
  | _ => .error ⟨"InlineBlock"⟩

/-- Generated `From<Blank> for Shape` — total widening. -/
def Blank.into (t : Blank) : Shape A T := Shape.Blank t

/-- Generated `TryFrom<Shape> for Blank` — narrowing, with the wrong-variant
error carrying the expected constructor name. -/
def Blank.tryFrom : Shape A T → Except WrongEnum (Blank)
  | .Blank elem => .ok elem
  | _ => .error ⟨"Blank"⟩

/-- Generated `From<Var> for Shape` — total widening. -/
def Var.into (t : Var) : Shape A T := Shape.Var t

/-- Generated `TryFrom<Shape> for Var` — narrowing, with the wrong-variant
error carrying the expected constructor name. -/
def Var.tryFrom : Shape A T → Except WrongEnum (Var)
  | .Var elem => .ok elem
  | _ => .error ⟨"Var"⟩

/-- Generated `From<Cons> for Shape` — total widening. -/
def Cons.into (t : Cons) : Shape A T := Shape.Cons t

/-- Generated `TryFrom<Shape> for Cons` — narrowing, with the wrong-variant
error carrying the expected constructor name. -/
def Cons.tryFrom : Shape A T → Except WrongEnum (Cons)
  | .Cons elem => .ok elem
  | _ => .error ⟨"Cons"⟩

/-- Generated `From<Opr> for Shape` — total widening. -/
def Opr.into (t : Opr) : Shape A T := Shape.Opr t

/-- Generated `TryFrom<Shape> for Opr` — narrowing, with the wrong-variant
error carrying the expected constructor name. -/
def Opr.tryFrom : Shape A T → Except WrongEnum (Opr)
  | .Opr elem => .ok elem
  | _ => .error ⟨"Opr"⟩

/-- Generated `From<Mod> for Shape` — total widening. -/
def Mod.into (t : Mod) : Shape A T := Shape.Mod t

/-- Generated `TryFrom<Shape> for Mod` — narrowing, with the wrong-variant
error carrying the expected constructor name. -/
def Mod.tryFrom : Shape A T → Except WrongEnum (Mod)
  | .Mod elem => .ok elem
  | _ => .error ⟨"Mod"⟩

/-- Generated `From<InvalidSuffix> for Shape` — total widening. -/
def InvalidSuffix.into (t : InvalidSuffix T) : Shape A T := Shape.InvalidSuffix t

/-- Generated `TryFrom<Shape> for InvalidSuffix` — narrowing, with the wrong-variant
error carrying the expected constructor name. -/
def InvalidSuffix.tryFrom : Shape A T → Except WrongEnum (InvalidSuffix T)
  | .InvalidSuffix elem => .ok elem
  | _ => .error ⟨"InvalidSuffix"⟩

/-- Generated `From<Number> for Shape` — total widening. -/
def Number.into (t : Number) : Shape A T := Shape.Number t

/-- Generated `TryFrom<Shape> for Number` — narrowing, with the wrong-variant
error carrying the expected constructor name. -/
def Number.tryFrom : Shape A T → Except WrongEnum (Number)
  | .Number elem => .ok elem
  | _ => .error ⟨"Number"⟩

/-- Generated `From<DanglingBase> for Shape` — total widening. -/
def DanglingBase.into (t : DanglingBase) : Shape A T := Shape.DanglingBase t

/-- Generated `TryFrom<Shape> for DanglingBase` — narrowing, with the wrong-variant
error carrying the expected constructor name. -/
def DanglingBase.tryFrom : Shape A T → Except WrongEnum (DanglingBase)
  | .DanglingBase elem => .ok elem
  | _ => .error ⟨"DanglingBase"⟩

/-- Generated `From<TextLineRaw> for Shape` — total widening. -/
def TextLineRaw.into (t : TextLineRaw) : Shape A T := Shape.TextLineRaw t

/-- Generated `TryFrom<Shape> for TextLineRaw` — narrowing, with the wrong-variant
error carrying the expected constructor name. -/
def TextLineRaw.tryFrom : Shape A T → Except WrongEnum (TextLineRaw)
  | .TextLineRaw elem => .ok elem
  | _ => .error ⟨"TextLineRaw"⟩

/-- Generated `From<TextLineFmt> for Shape` — total widening. -/
def TextLineFmt.into (t : TextLineFmt T) : Shape A T := Shape.TextLineFmt t

/-- Generated `TryFrom<Shape> for TextLineFmt` — narrowing, with the wrong-variant
error carrying the expected constructor name. -/
def TextLineFmt.tryFrom : Shape A T → Except WrongEnum (TextLineFmt T)
  | .TextLineFmt elem => .ok elem
  | _ => .error ⟨"TextLineFmt"⟩

/-- Generated `From<TextBlockRaw> for Shape` — total widening. -/
def TextBlockRaw.into (t : TextBlockRaw) : Shape A T := Shape.TextBlockRaw t

/-- Generated `TryFrom<Shape> for TextBlockRaw` — narrowing, with the wrong-variant
error carrying the expected constructor name. -/
def TextBlockRaw.tryFrom : Shape A T → Except WrongEnum (TextBlockRaw)
  | .TextBlockRaw elem => .ok elem
  | _ => .error ⟨"TextBlockRaw"⟩

/-- Generated `From<TextBlockFmt> for Shape` — total widening. -/
def TextBlockFmt.into (t : TextBlockFmt T) : Shape A T := Shape.TextBlockFmt t

/-- Generated `TryFrom<Shape> for TextBlockFmt` — narrowing, with the wrong-variant
error carrying the expected constructor name. -/
def TextBlockFmt.tryFrom : Shape A T → Except WrongEnum (TextBlockFmt T)
  | .TextBlockFmt elem => .ok elem
  | _ => .error ⟨"TextBlockFmt"⟩

/-- Generated `From<TextUnclosed> for Shape` — total widening. -/
def TextUnclosed.into (t : TextUnclosed T) : Shape A T := Shape.TextUnclosed t

/-- Generated `TryFrom<Shape> for TextUnclosed` — narrowing, with the wrong-variant
error carrying the expected constructor name. -/
def TextUnclosed.tryFrom : Shape A T → Except WrongEnum (TextUnclosed T)
  | .TextUnclosed elem => .ok elem
  | _ => .error ⟨"TextUnclosed"⟩

/-- Generated `From<Prefix> for Shape` — total widening. -/
def Prefix.into (t : Prefix T) : Shape A T := Shape.Prefix t

/-- Generated `TryFrom<Shape> for Prefix` — narrowing, with the wrong-variant
error carrying the expected constructor name. -/
def Prefix.tryFrom : Shape A T → Except WrongEnum (Prefix T)
  | .Prefix elem => .ok elem
  | _ => .error ⟨"Prefix"⟩

/-- Generated `From<Infix> for Shape` — total widening. -/
def Infix.into (t : Infix T) : Shape A T := Shape.Infix t

/-- Generated `TryFrom<Shape> for Infix` — narrowing, with the wrong-variant
error carrying the expected constructor name. -/
def Infix.tryFrom : Shape A T → Except WrongEnum (Infix T)
  | .Infix elem => .ok elem
  | _ => .error ⟨"Infix"⟩

/-- Generated `From<SectionLeft> for Shape` — total widening. -/
def SectionLeft.into (t : SectionLeft T) : Shape A T := Shape.SectionLeft t

/-- Generated `TryFrom<Shape> for SectionLeft` — narrowing, with the wrong-variant
error carrying the expected constructor name. -/
def SectionLeft.tryFrom : Shape A T → Except WrongEnum (SectionLeft T)
  | .SectionLeft elem => .ok elem
  | _ => .error ⟨"SectionLeft"⟩

/-- Generated `From<SectionRight> for Shape` — total widening. -/
def SectionRight.into (t : SectionRight T) : Shape A T := Shape.SectionRight t

/-- Generated `TryFrom<Shape> for SectionRight` — narrowing, with the wrong-variant
error carrying the expected constructor name. -/
def SectionRight.tryFrom : Shape A T → Except WrongEnum (SectionRight T)
  | .SectionRight elem => .ok elem
  | _ => .error ⟨"SectionRight"⟩

/-- Generated `From<SectionSides> for Shape` — total widening. -/
def SectionSides.into (t : SectionSides T) : Shape A T := Shape.SectionSides t

/-- Generated `TryFrom<Shape> for SectionSides` — narrowing, with the wrong-variant
error carrying the expected constructor name. -/
def SectionSides.tryFrom : Shape A T → Except WrongEnum (SectionSides T)
  | .SectionSides elem => .ok elem
  | _ => .error ⟨"SectionSides"⟩

/-- Generated `From<Module> for Shape` — total widening. -/
def Module.into (t : Module T) : Shape A T := Shape.Module t

/-- Generated `TryFrom<Shape> for Module` — narrowing, with the wrong-variant
error carrying the expected constructor name. -/
def Module.tryFrom : Shape A T → Except WrongEnum (Module T)
  | .Module elem => .ok elem
  | _ => .error ⟨"Module"⟩

/-- Generated `From<Block> for Shape` — total widening. -/
def Block.into (t : Block T) : Shape A T := Shape.Block t

/-- Generated `TryFrom<Shape> for Block` — narrowing, with the wrong-variant
error carrying the expected constructor name. -/
def Block.tryFrom : Shape A T → Except WrongEnum (Block T)
  | .Block elem => .ok elem
  | _ => .error ⟨"Block"⟩

/-- Generated `From<Match> for Shape` — total widening. -/
def Match.into (t : Match A T) : Shape A T := Shape.Match t

/-- Generated `TryFrom<Shape> for Match` — narrowing, with the wrong-variant
error carrying the expected constructor name. -/
def Match.tryFrom : Shape A T → Except WrongEnum (Match A T)
  | .Match elem => .ok elem
  | _ => .error ⟨"Match"⟩

/-- Generated `From<Ambiguous> for Shape` — total widening. -/
def Ambiguous.into (t : Ambiguous A) : Shape A T := Shape.Ambiguous t

/-- Generated `TryFrom<Shape> for Ambiguous` — narrowing, with the wrong-variant
error carrying the expected constructor name. -/
def Ambiguous.tryFrom : Shape A T → Except WrongEnum (Ambiguous A)
  | .Ambiguous elem => .ok elem
  | _ => .error ⟨"Ambiguous"⟩

/-- Generated `From<Comment> for Shape` — total widening. -/
def Comment.into (t : Comment) : Shape A T := Shape.Comment t

/-- Generated `TryFrom<Shape> for Comment` — narrowing, with the wrong-variant
error carrying the expected constructor name. -/
def Comment.tryFrom : Shape A T → Except WrongEnum (Comment)
  | .Comment elem => .ok elem
  | _ => .error ⟨"Comment"⟩

/-- Generated `From<Import> for Shape` — total widening. -/
def Import.into (t : Import T) : Shape A T := Shape.Import t

/-- Generated `TryFrom<Shape> for Import` — narrowing, with the wrong-variant
error carrying the expected constructor name. -/
def Import.tryFrom : Shape A T → Except WrongEnum (Import T)
  | .Import elem => .ok elem
  | _ => .error ⟨"Import"⟩

/-- Generated `From<Mixfix> for Shape` — total widening. -/
def Mixfix.into (t : Mixfix T) : Shape A T := Shape.Mixfix t

/-- Generated `TryFrom<Shape> for Mixfix` — narrowing, with the wrong-variant
error carrying the expected constructor name. -/
def Mixfix.tryFrom : Shape A T → Except WrongEnum (Mixfix T)
  | .Mixfix elem => .ok elem
  | _ => .error ⟨"Mixfix"⟩

/-- Generated `From<Group> for Shape` — total widening. -/
def Group.into (t : Group T) : Shape A T := Shape.Group t

/-- Generated `TryFrom<Shape> for Group` — narrowing, with the wrong-variant
error carrying the expected constructor name. -/
def Group.tryFrom : Shape A T → Except WrongEnum (Group T)
  | .Group elem => .ok elem
  | _ => .error ⟨"Group"⟩

/-- Generated `From<Def> for Shape` — total widening. -/
def Def.into (t : Def T) : Shape A T := Shape.Def t

/-- Generated `TryFrom<Shape> for Def` — narrowing, with the wrong-variant
error carrying the expected constructor name. -/
def Def.tryFrom : Shape A T → Except WrongEnum (Def T)
  | .Def elem => .ok elem
  | _ => .error ⟨"Def"⟩

/-- Generated `From<Foreign> for Shape` — total widening. -/
def Foreign.into (t : Foreign) : Shape A T := Shape.Foreign t

/-- Generated `TryFrom<Shape> for Foreign` — narrowing, with the wrong-variant
error carrying the expected constructor name. -/
def Foreign.tryFrom : Shape A T → Except WrongEnum (Foreign)
  | .Foreign elem => .ok elem
  | _ => .error ⟨"Foreign"⟩

-- =======================================
-- === Auxiliary definitions for claims ===
-- =======================================

/-- The shapes covered by the catch-all `_ => panic!("not implemented {}")`
arm of `Shape::span`: the macro results and the spaceless forms. -/
def Shape.spanUnspecified : Shape A T → Bool
  | .Match _ => true
  | .Ambiguous _ => true
  | .Comment _ => true
  | .Import _ => true
  | .Mixfix _ => true
  | .Group _ => true
  | .Def _ => true
  | .Foreign _ => true
  | _ => false

/-- Effectful element-wise map over a list (used to state the spec's sums
over lines). -/
def mapExcept (f : α → Except ε β) : List α → Except ε (List β)
  | [] => pure []
  | x :: xs => do
    let y ← f x
    let ys ← mapExcept f xs
    pure (y :: ys)

/-- One remaining line of a block, as the spec words it: `1 newline +
indent-if-non-empty + line span`. -/
def blockLineSpec (indent : Nat) (line : BlockLine (Option Ast)) :
    Except SpanError Nat := do
  let ind : Nat := if line.elem.isSome then indent else 0
  let ls ← BlockLine.spanOptE line
  pure (1 + ind + ls)

/-- The Block span rule as the spec words it: `(1 if not orphan else 0) +
Σ(blank-line gap+1) + (indent + first-line span) + Σ remaining lines of
(1 newline + indent-if-non-empty + line span)`.  Stated independently of
the code's fused recursion, to compare against `Block.spanE`. -/
def Block.spanSpec (b : Block Ast) : Except SpanError Nat := do
  let head : Nat := if b.is_orphan then 0 else 1
  let gaps : Nat := (b.empty_lines.map (fun gap => gap + 1)).sum
  let first ← BlockLine.spanE b.first_line
  let rest ← mapExcept (blockLineSpec b.indent) b.lines
  pure (head + gaps + (b.indent + first) + rest.sum)

/-- Whether a wire value is of the type serde expects under the given key
(`next_value` succeeds); values under unknown keys are unconstrained. -/
def WireValue.typedFor (k : String) (v : WireValue) : Bool :=
  if k = ast_schema.SHAPE then
    match v with
    | .shapeVal _ => true
    | _ => false
  else if k = ast_schema.ID then
    match v with
    | .idVal _ => true
    | _ => false
  else if k = ast_schema.SPAN then
    match v with
    | .spanVal _ => true
    | _ => false
  else true

/-- A payload whose known-key entries all carry values of the declared wire
types. -/
def WireObject.wellTyped (entries : WireObject) : Bool :=
  entries.all (fun kv => WireValue.typedFor kv.1 kv.2)

/-- Decidable equality of `Except` results (componentwise). -/
instance exceptDecEq {e a : Type} [DecidableEq e] [DecidableEq a] :
    DecidableEq (Except e a)
  | .ok x, .ok y =>
      if h : x = y then .isTrue (by rw [h]) else .isFalse (by simp [h])
  | .ok _, .error _ => .isFalse (by simp)
  | .error _, .ok _ => .isFalse (by simp)
  | .error x, .error y =>
      if h : x = y then .isTrue (by rw [h]) else .isFalse (by simp [h])

-- === Concrete sample nodes (used in counterexamples and witnesses) ===

/-- The node `Var{name:"foo"}` with its correct span 3 and no identity. -/
def fooAst : Ast := Ast.newWithSpan (.Var ⟨"foo"⟩) none 3

/-- The node `Var{name:"bar"}` with its correct span 3 and no identity. -/
def barAst : Ast := Ast.newWithSpan (.Var ⟨"bar"⟩) none 3

/-- The application `Prefix{func: foo, off: 1, arg: bar}` with its correct
span 7 and no identity. -/
def appAst : Ast := Ast.newWithSpan (.Prefix ⟨fooAst, 1, barAst⟩) none 7

/-- A concrete `Match` shape: no prefix match, a single segment whose body
is a `Begin` boundary match, resolved to `foo`. -/
def sampleMatchShape : Shape Ast Ast :=
  .Match ⟨none, ⟨⟨fooAst, .Begin ⟨⟩⟩, []⟩, fooAst⟩

-- ================
-- === Theorems ===
-- ================

/-- **C9** — Span compositionality on concrete shapes: `Var{name:"foo"}`
has span 3; `Number{base:Some("16"), int:"ff"}` has span 2+1+2=5 (digit
length plus base length plus one separator code point because a base is
present); `TextLineRaw{text:[]}` has span 2. -/
theorem span_concrete_shapes :
    Shape.spanE (.Var ⟨"foo"⟩) = .ok 3
    ∧ Shape.spanE (.Number ⟨some "16", "ff"⟩) = .ok 5
    ∧ Shape.spanE (.TextLineRaw ⟨[]⟩) = .ok 2 := by
  refine ⟨?_, ?_, ?_⟩ <;>
    simp [Shape.spanE, Var.span, Number.span, TextLineRaw.span, stringSpan,
      listSpan, charSpan] <;> rfl

/-- **C10** — For every `MacroPatternMatchRaw<T>` value, whatever its
variant and captured payload, `span()` returns exactly 0. -/
theorem macro_pattern_match_span_zero (A T : Type)
    (m : MacroPatternMatchRaw A T) : MacroPatternMatchRaw.span m = 0 := rfl

/-- **C5 counterexample** — the claim says the span of every identifier
shape equals the code-point length of its name, but `Mod{name:"M"}` has
span 2 while its name has length 1 (`Mod::span` adds 1, marked `FIXME`). -/
theorem identifier_span_cex :
    Mod.span ⟨"M"⟩ = 2 ∧ stringSpan "M" = 1
    ∧ Mod.span ⟨"M"⟩ ≠ stringSpan "M" := by
  refine ⟨rfl, rfl, ?_⟩
  decide

/-- **C5 (amended)** — `Var`, `Cons` and `Opr` spans equal the code-point
length of the name and `Blank`'s span is the fixed one-code-point
representation, but `Mod`'s span is the length of its name plus one. -/
theorem identifier_spans (name : String) :
    Shape.spanE (.Var ⟨name⟩) = .ok (stringSpan name)
    ∧ Shape.spanE (.Cons ⟨name⟩) = .ok (stringSpan name)
    ∧ Shape.spanE (.Opr ⟨name⟩) = .ok (stringSpan name)
    ∧ Shape.spanE (.Blank ⟨⟩) = .ok 1
    ∧ Shape.spanE (.Mod ⟨name⟩) = .ok (stringSpan name + 1) := by
  refine ⟨?_, ?_, ?_, ?_, ?_⟩ <;>
    simp [Shape.spanE, Var.span, Cons.span, Opr.span, Blank.span, Mod.span,
      charSpan, Blank.REPR] <;> rfl

/-- **C4 counterexample** — the claim says `Ast::new` never fails even for
the macro shapes and the spaceless forms, but on a concrete `Match` shape
and on `Comment{lines:[]}` the span computation hits the
`panic!("not implemented {}")` arm, so construction aborts instead of
succeeding. -/
theorem ast_new_totality_cex :
    Ast.new sampleMatchShape none = .error .notImplemented
    ∧ Ast.new (.Comment ⟨[]⟩) none = .error .notImplemented := by
  constructor <;> simp [Ast.new, sampleMatchShape, Shape.spanE, throw,
    throwThe, MonadExceptOf.throw, Except.map]

/-- **C4 (amended)** — `Ast::new` is not total: on every shape whose top
constructor has no span rule (the macro shapes and the spaceless forms) it
raises the distinguished "not implemented" condition rather than returning
a number, and on `Module{lines:[]}` it fails the `len > 0` assertion. -/
theorem ast_new_unspecified_raises :
    (∀ (s : Shape Ast Ast) (id : Option ID), Shape.spanUnspecified s = true →
      Ast.new s id = .error .notImplemented)
    ∧ (∀ id : Option ID, Ast.new (.Module ⟨[]⟩) id = .error .assertFailed) := by
  constructor
  · intro s id h
    cases s <;> simp [Shape.spanUnspecified] at h <;>
      simp [Ast.new, Shape.spanE, throw, throwThe, MonadExceptOf.throw,
        Except.map]
  · intro id
    simp [Ast.new, Shape.spanE, Module.spanE, throw, throwThe,
      MonadExceptOf.throw, Except.map]

/-- **C4 witness** — the amended theorem applied to the concrete `Match`
shape and a concrete empty module. -/
theorem ast_new_unspecified_raises_witness :
    Ast.new sampleMatchShape none = .error .notImplemented
    ∧ Ast.new (.Module ⟨[]⟩) none = .error .assertFailed :=
  ⟨ast_new_unspecified_raises.1 sampleMatchShape none (by
      simp [sampleMatchShape, Shape.spanUnspecified]),
    ast_new_unspecified_raises.2 none⟩

/-- **C2 counterexample** — the claim says every construction path,
including decoding, funnels through the span-computing constructor, so no
constructible node stores a span different from `span(shape)`; but decoding
a well-formed payload whose `span` field is 42 produces the `Var{"foo"}`
node with stored span 42, while the span algebra gives 3. -/
theorem cached_span_invariant_cex :
    Ast.deserialize
        [(ast_schema.SHAPE, .shapeVal (.Var ⟨"foo"⟩)),
          (ast_schema.SPAN, .spanVal 42)]
      = .ok (Ast.newWithSpan (.Var ⟨"foo"⟩) none 42)
    ∧ (Ast.newWithSpan (.Var ⟨"foo"⟩) none 42).spanData = 42
    ∧ Shape.spanE (Ast.newWithSpan (.Var ⟨"foo"⟩) none 42).shape = .ok 3
    ∧ Shape.spanE (Ast.newWithSpan (.Var ⟨"foo"⟩) none 42).shape
        ≠ .ok (Ast.newWithSpan (.Var ⟨"foo"⟩) none 42).spanData := by
  refine ⟨rfl, rfl, ?_, ?_⟩
  · simp [Ast.newWithSpan, Ast.shape, Ast.unwrap, Shape.spanE, Var.span,
      stringSpan]
    rfl
  · simp [Ast.newWithSpan, Ast.shape, Ast.unwrap, Ast.spanData, Shape.spanE,
      Var.span, stringSpan]
    decide

/-- **C2 (amended)** — every node built by `Ast::new` stores exactly the
span the Span Algebra computes from its shape (and the given identity);
`new_with_span` — and therefore decoding — stores the caller-supplied span
unchecked, which may differ from `span(shape)`. -/
theorem new_stores_computed_span (s : Shape Ast Ast) (id : Option ID)
    (a : Ast) (h : Ast.new s id = .ok a) :
    a.shape = s ∧ a.idData = id ∧ Shape.spanE a.shape = .ok a.spanData := by
  unfold Ast.new at h
  cases hsp : Shape.spanE s with
  | error e => rw [hsp] at h; exact absurd h (by simp)
  | ok n =>
      rw [hsp] at h
      simp at h
      subst h
      exact ⟨rfl, rfl, hsp⟩

/-- **C2 witness** — the amended theorem applied to `Var{"foo"}`. -/
theorem new_stores_computed_span_witness :
    fooAst.shape = Shape.Var ⟨"foo"⟩ ∧ fooAst.idData = none
    ∧ Shape.spanE fooAst.shape = .ok fooAst.spanData :=
  new_stores_computed_span (.Var ⟨"foo"⟩) none fooAst (by
    simp [Ast.new, Shape.spanE, Var.span, stringSpan, fooAst]
    rfl)

/-- **C1** — Wire round-trip: decoding the encoding of any node yields an
equal node, and when the identity is absent the encoded object carries no
`id` field at all (rather than a null one). -/
theorem ast_wire_roundtrip :
    (∀ x : Ast, Ast.deserialize (Ast.serialize x) = .ok x)
    ∧ ∀ x : Ast, x.idData = none →
        ast_schema.ID ∉ (Ast.serialize x).map Prod.fst := by
  constructor
  · intro x
    obtain ⟨⟨⟨s, sp⟩, i⟩⟩ := x
    cases i <;>
      simp [Ast.serialize, Ast.deserialize, visitMapLoop, Ast.shape,
        Ast.idData, Ast.spanData, Ast.unwrap, ast_schema.SHAPE, ast_schema.ID,
        ast_schema.SPAN, Ast.newWithSpan] <;> rfl
  · intro x h
    simp [Ast.serialize, h, ast_schema.ID, ast_schema.SHAPE, ast_schema.SPAN]

/-- **C1 witness** — the round-trip theorem applied to the concrete node
`Var{"foo"}` without identity. -/
theorem ast_wire_roundtrip_witness :
    Ast.deserialize (Ast.serialize fooAst) = .ok fooAst
    ∧ ast_schema.ID ∉ (Ast.serialize fooAst).map Prod.fst :=
  ⟨ast_wire_roundtrip.1 fooAst, ast_wire_roundtrip.2 fooAst rfl⟩

-- === Traversal lemmas (C3) ===

theorem preorderMirrorList_append (l1 l2 : List Ast) :
    preorderMirrorList (l1 ++ l2)
      = preorderMirrorList l1 ++ preorderMirrorList l2 := by
  induction l1 with
  | nil => simp [preorderMirrorList]
  | cons x xs ih => simp [preorderMirrorList, ih]

theorem iterateSubtreeLoop_eq :
    (stack : List Ast) → iterateSubtreeLoop stack = preorderMirrorList stack
  | [] => by simp [iterateSubtreeLoop, preorderMirrorList]
  | a :: rest => by
      have ih := iterateSubtreeLoop_eq ((Ast.children a).reverse ++ rest)
      simp only [iterateSubtreeLoop]
      rw [ih, preorderMirrorList_append]
      simp [preorderMirrorList, Ast.preorderMirror]
termination_by stack => sizeSum stack
decreasing_by
  have := sizeSum_children_lt a
  simp
  omega

theorem traverse_eq_preorderMirror (a : Ast) :
    Ast.traverse a = Ast.preorderMirror a := by
  simp [Ast.traverse, iterateSubtree, iterateSubtreeLoop_eq,
    preorderMirrorList]

theorem preorderMirrorList_reverse_perm (l : List Ast) :
    (preorderMirrorList l.reverse).Perm (preorderMirrorList l) := by
  induction l with
  | nil => exact .refl _
  | cons x xs ih =>
      simp only [List.reverse_cons]
      rw [preorderMirrorList_append]
      simp only [preorderMirrorList, List.append_nil]
      exact List.perm_append_comm.trans ((List.Perm.refl _).append ih)

theorem preorderMirror_perm_natural_aux :
    ∀ (n : Nat) (a : Ast), sizeOf a < n →
      (Ast.preorderMirror a).Perm (Ast.preorderNatural a) := by
  intro n
  induction n with
  | zero => intro a h; omega
  | succ n ih =>
      intro a h
      rw [Ast.preorderMirror, Ast.preorderNatural]
      refine .cons a ((preorderMirrorList_reverse_perm _).trans ?_)
      have hlist : ∀ x ∈ Ast.children a, sizeOf x < n := by
        intro x hx
        have h1 := le_sizeSum_of_mem hx
        have h2 := sizeSum_children_lt a
        omega
      clear h
      generalize Ast.children a = l at hlist
      induction l with
      | nil =>
          simp only [preorderMirrorList, preorderNaturalList]
          exact .refl _
      | cons x xs ihl =>
          simp only [preorderMirrorList, preorderNaturalList]
          exact (ih x (hlist x (List.mem_cons_self x xs))).append
            (ihl (fun y hy => hlist y (List.mem_cons_of_mem x hy)))

theorem preorderMirror_perm_natural (a : Ast) :
    (Ast.preorderMirror a).Perm (Ast.preorderNatural a) :=
  preorderMirror_perm_natural_aux (sizeOf a + 1) a (by omega)

/-- **C3 counterexample** — the claim says `traverse()` yields the children
in natural left-to-right field order; but for the concrete application
`foo bar` (whose child iterator yields `[foo, bar]`) the traversal yields
`[app, bar, foo]` — the children come back right-to-left, because the
stack pops the most recently pushed child first. -/
theorem traverse_order_cex :
    Ast.children appAst = [fooAst, barAst]
    ∧ Ast.traverse appAst = [appAst, barAst, fooAst]
    ∧ fooAst ≠ barAst
    ∧ Ast.traverse appAst ≠ [appAst, fooAst, barAst] := by
  have hchild : Ast.children appAst = [fooAst, barAst] := rfl
  have hfoo : Ast.children fooAst = [] := rfl
  have hbar : Ast.children barAst = [] := rfl
  have hne : fooAst ≠ barAst := by
    simp [fooAst, barAst, Ast.newWithSpan]
  have htrav : Ast.traverse appAst = [appAst, barAst, fooAst] := by
    simp [Ast.traverse, iterateSubtree, iterateSubtreeLoop, hchild, hfoo,
      hbar]
  refine ⟨hchild, htrav, hne, ?_⟩
  rw [htrav]
  simp [hne]

/-- **C3 (amended)** — `traverse()` is a terminating depth-first pre-order
that starts with the root, visits every node of the finite tree exactly
once (it is a permutation of the natural pre-order), and yields exactly
the root on a leaf; but within each node the children are yielded in
**reverse** (right-to-left) field order — the traversal equals the
mirrored pre-order, not the natural one. -/
theorem traverse_is_mirrored_preorder :
    (∀ a : Ast, Ast.traverse a = Ast.preorderMirror a)
    ∧ (∀ a : Ast, (Ast.traverse a).Perm (Ast.preorderNatural a))
    ∧ (∀ a : Ast, (Ast.traverse a).head? = some a)
    ∧ (∀ a : Ast, Ast.children a = [] → Ast.traverse a = [a]) := by
  refine ⟨traverse_eq_preorderMirror, ?_, ?_, ?_⟩
  · intro a
    rw [traverse_eq_preorderMirror]
    exact preorderMirror_perm_natural a
  · intro a
    rw [traverse_eq_preorderMirror, Ast.preorderMirror]
    rfl
  · intro a h
    rw [traverse_eq_preorderMirror, Ast.preorderMirror, h]
    simp [preorderMirrorList]

/-- **C3 witness** — the amended theorem applied to the leaf `Var{"foo"}`. -/
theorem traverse_is_mirrored_preorder_witness :
    Ast.traverse fooAst = Ast.preorderMirror fooAst
    ∧ (Ast.traverse fooAst).Perm (Ast.preorderNatural fooAst)
    ∧ (Ast.traverse fooAst).head? = some fooAst
    ∧ Ast.traverse fooAst = [fooAst] :=
  ⟨traverse_is_mirrored_preorder.1 fooAst,
    traverse_is_mirrored_preorder.2.1 fooAst,
    traverse_is_mirrored_preorder.2.2.1 fooAst,
    traverse_is_mirrored_preorder.2.2.2 fooAst rfl⟩

-- === Decode lemmas (C6) ===

theorem visitMapLoop_spec :
    ∀ (entries : WireObject), WireObject.wellTyped entries = true →
    ∀ (sh0 : Option (Shape Ast Ast)) (id0 : Option (Option ID))
      (sp0 : Option Nat),
    ∃ sh id sp, visitMapLoop entries sh0 id0 sp0 = .ok (sh, id, sp)
      ∧ ((∀ kv ∈ entries, kv.1 ≠ ast_schema.SHAPE) → sh = sh0)
      ∧ (sh0.isSome → sh.isSome)
      ∧ ((∃ kv ∈ entries, kv.1 = ast_schema.SHAPE) → sh.isSome)
      ∧ ((∀ kv ∈ entries, kv.1 ≠ ast_schema.SPAN) → sp = sp0) := by
  intro entries
  induction entries with
  | nil =>
      intro _ sh0 id0 sp0
      exact ⟨sh0, id0, sp0, rfl, fun _ => rfl, fun h => h, by simp,
        fun _ => rfl⟩
  | cons kv rest ih =>
      intro hwt sh0 id0 sp0
      obtain ⟨k, v⟩ := kv
      rw [show WireObject.wellTyped ((k, v) :: rest)
            = (WireValue.typedFor k v && WireObject.wellTyped rest)
          from rfl] at hwt
      rw [Bool.and_eq_true] at hwt
      obtain ⟨htf, hwt⟩ := hwt
      by_cases hk1 : k = ast_schema.SHAPE
      · subst hk1
        cases v with
        | shapeVal s =>
            obtain ⟨sh, id, sp, hloop, hnone, hsome, hex, hsp⟩ :=
              ih hwt (some s) id0 sp0
            refine ⟨sh, id, sp, ?_, ?_, ?_, ?_, ?_⟩
            · simpa [visitMapLoop] using hloop
            · intro h
              exact absurd rfl (h _ (List.mem_cons_self _ _))
            · intro _
              exact hsome rfl
            · intro _
              exact hsome rfl
            · intro h
              refine hsp (fun kv2 hkv2 => h kv2 (List.mem_cons_of_mem _ hkv2))
        | idVal i => simp [WireValue.typedFor] at htf
        | spanVal n => simp [WireValue.typedFor] at htf
      · by_cases hk2 : k = ast_schema.ID
        · subst hk2
          cases v with
          | idVal i =>
              obtain ⟨sh, id, sp, hloop, hnone, hsome, hex, hsp⟩ :=
                ih hwt sh0 (some i) sp0
              refine ⟨sh, id, sp, ?_, ?_, hsome, ?_, ?_⟩
              · simpa [visitMapLoop, hk1] using hloop
              · intro h
                exact hnone (fun kv2 hkv2 => h kv2 (List.mem_cons_of_mem _ hkv2))
              · intro h
                rcases h with ⟨kv2, hkv2, hkeq⟩
                rcases List.mem_cons.mp hkv2 with rfl | hkv2
                · exact absurd hkeq hk1
                · exact hex ⟨kv2, hkv2, hkeq⟩
              · intro h
                exact hsp (fun kv2 hkv2 => h kv2 (List.mem_cons_of_mem _ hkv2))
          | shapeVal s => simp [WireValue.typedFor, hk1] at htf
          | spanVal n => simp [WireValue.typedFor, hk1] at htf
        · by_cases hk3 : k = ast_schema.SPAN
          · subst hk3
            cases v with
            | spanVal n =>
                obtain ⟨sh, id, sp, hloop, hnone, hsome, hex, hsp⟩ :=
                  ih hwt sh0 id0 (some n)
                refine ⟨sh, id, sp, ?_, ?_, hsome, ?_, ?_⟩
                · simpa [visitMapLoop, hk1, hk2] using hloop
                · intro h
                  exact hnone
                    (fun kv2 hkv2 => h kv2 (List.mem_cons_of_mem _ hkv2))
                · intro h
                  rcases h with ⟨kv2, hkv2, hkeq⟩
                  rcases List.mem_cons.mp hkv2 with rfl | hkv2
                  · exact absurd hkeq hk1
                  · exact hex ⟨kv2, hkv2, hkeq⟩
                · intro h
                  exact absurd rfl (h _ (List.mem_cons_self _ _))
            | shapeVal s => simp [WireValue.typedFor, hk1, hk2] at htf
            | idVal i => simp [WireValue.typedFor, hk1, hk2] at htf
          · obtain ⟨sh, id, sp, hloop, hnone, hsome, hex, hsp⟩ :=
              ih hwt sh0 id0 sp0
            refine ⟨sh, id, sp, ?_, ?_, hsome, ?_, ?_⟩
            · simpa [visitMapLoop, hk1, hk2, hk3] using hloop
            · intro h
              exact hnone (fun kv2 hkv2 => h kv2 (List.mem_cons_of_mem _ hkv2))
            · intro h
              rcases h with ⟨kv2, hkv2, hkeq⟩
              rcases List.mem_cons.mp hkv2 with rfl | hkv2
              · exact absurd hkeq hk1
              · exact hex ⟨kv2, hkv2, hkeq⟩
            · intro h
              exact hsp (fun kv2 hkv2 => h kv2 (List.mem_cons_of_mem _ hkv2))

/-- **C6** — Missing-field decode: a well-typed payload with no `shape` key
fails with the structured missing-field error for `shape`; one with a
`shape` key but no `span` key fails with the missing-field error for
`span`; and a payload with only `shape` and `span` decodes successfully
with the identity defaulted to absent. -/
theorem missing_field_decode :
    (∀ entries : WireObject, WireObject.wellTyped entries = true →
      (∀ kv ∈ entries, kv.1 ≠ ast_schema.SHAPE) →
      Ast.deserialize entries = .error (.missingField ast_schema.SHAPE))
    ∧ (∀ entries : WireObject, WireObject.wellTyped entries = true →
      (∃ kv ∈ entries, kv.1 = ast_schema.SHAPE) →
      (∀ kv ∈ entries, kv.1 ≠ ast_schema.SPAN) →
      Ast.deserialize entries = .error (.missingField ast_schema.SPAN))
    ∧ (∀ (s : Shape Ast Ast) (n : Nat),
      Ast.deserialize
          [(ast_schema.SHAPE, .shapeVal s), (ast_schema.SPAN, .spanVal n)]
        = .ok (Ast.newWithSpan s none n)) := by
  refine ⟨?_, ?_, ?_⟩
  · intro entries hwt hnoshape
    obtain ⟨sh, id, sp, hloop, hnone, _, _, _⟩ :=
      visitMapLoop_spec entries hwt none none none
    have : sh = none := hnone hnoshape
    subst this
    simp [Ast.deserialize, hloop, Bind.bind, Except.bind, throw, throwThe,
      MonadExceptOf.throw, Except.map]
  · intro entries hwt hshape hnospan
    obtain ⟨sh, id, sp, hloop, _, _, hex, hsp⟩ :=
      visitMapLoop_spec entries hwt none none none
    have hs : sh.isSome := hex hshape
    have : sp = none := hsp hnospan
    subst this
    obtain ⟨s, rfl⟩ := Option.isSome_iff_exists.mp hs
    simp [Ast.deserialize, hloop, Bind.bind, Except.bind, throw, throwThe,
      MonadExceptOf.throw, Except.map, pure, Except.pure]
  · intro s n
    rfl

/-- **C6 witness** — decoding `{"id": ...}` (no shape, no span) fails with
the missing-field error for `shape`; decoding `{"shape": Var "foo",
"span": 3}` succeeds with absent identity. -/
theorem missing_field_decode_witness :
    Ast.deserialize [(ast_schema.ID, .idVal (some 7))]
      = .error (.missingField ast_schema.SHAPE)
    ∧ Ast.deserialize
        [(ast_schema.SHAPE, .shapeVal (.Var ⟨"foo"⟩)),
          (ast_schema.SPAN, .spanVal 3)]
      = .ok (Ast.newWithSpan (.Var ⟨"foo"⟩) none 3) :=
  ⟨missing_field_decode.1 [(ast_schema.ID, .idVal (some 7))] rfl
      (by simp [ast_schema.ID, ast_schema.SHAPE]),
    missing_field_decode.2.2 (.Var ⟨"foo"⟩) 3⟩

/-- **C7** — Widen/narrow contract: for every `Shape` variant, widening the
variant value into the sum and narrowing back succeeds and returns the
value unchanged, and narrowing a sum holding any other constructor fails
with the recoverable wrong-variant error carrying the expected variant
name. -/
theorem widen_narrow_contract :
    (∀ (A T : Type) (v : Var),
      Var.tryFrom (Var.into v : Shape A T) = .ok v)
    ∧ (∀ (A T : Type) (s : Shape A T), (∀ v : Var, s ≠ Var.into v) →
      Var.tryFrom s = .error ⟨"Var"⟩)
    ∧ (∀ (A T : Type) (v : Cons),
      Cons.tryFrom (Cons.into v : Shape A T) = .ok v)
    ∧ (∀ (A T : Type) (s : Shape A T), (∀ v : Cons, s ≠ Cons.into v) →
      Cons.tryFrom s = .error ⟨"Cons"⟩)
    ∧ (∀ (A T : Type) (v : Unrecognized),
      Unrecognized.tryFrom (Unrecognized.into v : Shape A T) = .ok v)
    ∧ (∀ (A T : Type) (s : Shape A T), (∀ v : Unrecognized, s ≠ Unrecognized.into v) →
      Unrecognized.tryFrom s = .error ⟨"Unrecognized"⟩)
    ∧ (∀ (A T : Type) (v : InvalidQuote),
      InvalidQuote.tryFrom (InvalidQuote.into v : Shape A T) = .ok v)
    ∧ (∀ (A T : Type) (s : Shape A T), (∀ v : InvalidQuote, s ≠ InvalidQuote.into v) →
      InvalidQuote.tryFrom s = .error ⟨"InvalidQuote"⟩)
    ∧ (∀ (A T : Type) (v : InlineBlock),
      InlineBlock.tryFrom (InlineBlock.into v : Shape A T) = .ok v)
    ∧ (∀ (A T : Type) (s : Shape A T), (∀ v : InlineBlock, s ≠ InlineBlock.into v) →
      InlineBlock.tryFrom s = .error ⟨"InlineBlock"⟩)
    ∧ (∀ (A T : Type) (v : Blank),
      Blank.tryFrom (Blank.into v : Shape A T) = .ok v)
    ∧ (∀ (A T : Type) (s : Shape A T), (∀ v : Blank, s ≠ Blank.into v) →
      Blank.tryFrom s = .error ⟨"Blank"⟩)
    ∧ (∀ (A T : Type) (v : Opr),
      Opr.tryFrom (Opr.into v : Shape A T) = .ok v)
    ∧ (∀ (A T : Type) (s : Shape A T), (∀ v : Opr, s ≠ Opr.into v) →
      Opr.tryFrom s = .error ⟨"Opr"⟩)
    ∧ (∀ (A T : Type) (v : Mod),
      Mod.tryFrom (Mod.into v : Shape A T) = .ok v)
    ∧ (∀ (A T : Type) (s : Shape A T), (∀ v : Mod, s ≠ Mod.into v) →
      Mod.tryFrom s = .error ⟨"Mod"⟩)
    ∧ (∀ (A T : Type) (v : InvalidSuffix T),
      InvalidSuffix.tryFrom (InvalidSuffix.into v : Shape A T) = .ok v)
    ∧ (∀ (A T : Type) (s : Shape A T), (∀ v : InvalidSuffix T, s ≠ InvalidSuffix.into v) →
      InvalidSuffix.tryFrom s = .error ⟨"InvalidSuffix"⟩)
    ∧ (∀ (A T : Type) (v : Number),
      Number.tryFrom (Number.into v : Shape A T) = .ok v)
    ∧ (∀ (A T : Type) (s : Shape A T), (∀ v : Number, s ≠ Number.into v) →
      Number.tryFrom s = .error ⟨"Number"⟩)
    ∧ (∀ (A T : Type) (v : DanglingBase),
      DanglingBase.tryFrom (DanglingBase.into v : Shape A T) = .ok v)
    ∧ (∀ (A T : Type) (s : Shape A T), (∀ v : DanglingBase, s ≠ DanglingBase.into v) →
      DanglingBase.tryFrom s = .error ⟨"DanglingBase"⟩)
    ∧ (∀ (A T : Type) (v : TextLineRaw),
      TextLineRaw.tryFrom (TextLineRaw.into v : Shape A T) = .ok v)
    ∧ (∀ (A T : Type) (s : Shape A T), (∀ v : TextLineRaw, s ≠ TextLineRaw.into v) →
      TextLineRaw.tryFrom s = .error ⟨"TextLineRaw"⟩)
    ∧ (∀ (A T : Type) (v : TextLineFmt T),
      TextLineFmt.tryFrom (TextLineFmt.into v : Shape A T) = .ok v)
    ∧ (∀ (A T : Type) (s : Shape A T), (∀ v : TextLineFmt T, s ≠ TextLineFmt.into v) →
      TextLineFmt.tryFrom s = .error ⟨"TextLineFmt"⟩)
    ∧ (∀ (A T : Type) (v : TextBlockRaw),
      TextBlockRaw.tryFrom (TextBlockRaw.into v : Shape A T) = .ok v)
    ∧ (∀ (A T : Type) (s : Shape A T), (∀ v : TextBlockRaw, s ≠ TextBlockRaw.into v) →
      TextBlockRaw.tryFrom s = .error ⟨"TextBlockRaw"⟩)
    ∧ (∀ (A T : Type) (v : TextBlockFmt T),
      TextBlockFmt.tryFrom (TextBlockFmt.into v : Shape A T) = .ok v)
    ∧ (∀ (A T : Type) (s : Shape A T), (∀ v : TextBlockFmt T, s ≠ TextBlockFmt.into v) →
      TextBlockFmt.tryFrom s = .error ⟨"TextBlockFmt"⟩)
    ∧ (∀ (A T : Type) (v : TextUnclosed T),
      TextUnclosed.tryFrom (TextUnclosed.into v : Shape A T) = .ok v)
    ∧ (∀ (A T : Type) (s : Shape A T), (∀ v : TextUnclosed T, s ≠ TextUnclosed.into v) →
      TextUnclosed.tryFrom s = .error ⟨"TextUnclosed"⟩)
    ∧ (∀ (A T : Type) (v : Prefix T),
      Prefix.tryFrom (Prefix.into v : Shape A T) = .ok v)
    ∧ (∀ (A T : Type) (s : Shape A T), (∀ v : Prefix T, s ≠ Prefix.into v) →
      Prefix.tryFrom s = .error ⟨"Prefix"⟩)
    ∧ (∀ (A T : Type) (v : Infix T),
      Infix.tryFrom (Infix.into v : Shape A T) = .ok v)
    ∧ (∀ (A T : Type) (s : Shape A T), (∀ v : Infix T, s ≠ Infix.into v) →
      Infix.tryFrom s = .error ⟨"Infix"⟩)
    ∧ (∀ (A T : Type) (v : SectionLeft T),
      SectionLeft.tryFrom (SectionLeft.into v : Shape A T) = .ok v)
    ∧ (∀ (A T : Type) (s : Shape A T), (∀ v : SectionLeft T, s ≠ SectionLeft.into v) →
      SectionLeft.tryFrom s = .error ⟨"SectionLeft"⟩)
    ∧ (∀ (A T : Type) (v : SectionRight T),
      SectionRight.tryFrom (SectionRight.into v : Shape A T) = .ok v)
    ∧ (∀ (A T : Type) (s : Shape A T), (∀ v : SectionRight T, s ≠ SectionRight.into v) →
      SectionRight.tryFrom s = .error ⟨"SectionRight"⟩)
    ∧ (∀ (A T : Type) (v : SectionSides T),
      SectionSides.tryFrom (SectionSides.into v : Shape A T) = .ok v)
    ∧ (∀ (A T : Type) (s : Shape A T), (∀ v : SectionSides T, s ≠ SectionSides.into v) →
      SectionSides.tryFrom s = .error ⟨"SectionSides"⟩)
    ∧ (∀ (A T : Type) (v : Module T),
      Module.tryFrom (Module.into v : Shape A T) = .ok v)
    ∧ (∀ (A T : Type) (s : Shape A T), (∀ v : Module T, s ≠ Module.into v) →
      Module.tryFrom s = .error ⟨"Module"⟩)
    ∧ (∀ (A T : Type) (v : Block T),
      Block.tryFrom (Block.into v : Shape A T) = .ok v)
    ∧ (∀ (A T : Type) (s : Shape A T), (∀ v : Block T, s ≠ Block.into v) →
      Block.tryFrom s = .error ⟨"Block"⟩)
    ∧ (∀ (A T : Type) (v : Match A T),
      Match.tryFrom (Match.into v : Shape A T) = .ok v)
    ∧ (∀ (A T : Type) (s : Shape A T), (∀ v : Match A T, s ≠ Match.into v) →
      Match.tryFrom s = .error ⟨"Match"⟩)
    ∧ (∀ (A T : Type) (v : Ambiguous A),
      Ambiguous.tryFrom (Ambiguous.into v : Shape A T) = .ok v)
    ∧ (∀ (A T : Type) (s : Shape A T), (∀ v : Ambiguous A, s ≠ Ambiguous.into v) →
      Ambiguous.tryFrom s = .error ⟨"Ambiguous"⟩)
    ∧ (∀ (A T : Type) (v : Comment),
      Comment.tryFrom (Comment.into v : Shape A T) = .ok v)
    ∧ (∀ (A T : Type) (s : Shape A T), (∀ v : Comment, s ≠ Comment.into v) →
      Comment.tryFrom s = .error ⟨"Comment"⟩)
    ∧ (∀ (A T : Type) (v : Import T),
      Import.tryFrom (Import.into v : Shape A T) = .ok v)
    ∧ (∀ (A T : Type) (s : Shape A T), (∀ v : Import T, s ≠ Import.into v) →
      Import.tryFrom s = .error ⟨"Import"⟩)
    ∧ (∀ (A T : Type) (v : Mixfix T),
      Mixfix.tryFrom (Mixfix.into v : Shape A T) = .ok v)
    ∧ (∀ (A T : Type) (s : Shape A T), (∀ v : Mixfix T, s ≠ Mixfix.into v) →
      Mixfix.tryFrom s = .error ⟨"Mixfix"⟩)
    ∧ (∀ (A T : Type) (v : Group T),
      Group.tryFrom (Group.into v : Shape A T) = .ok v)
    ∧ (∀ (A T : Type) (s : Shape A T), (∀ v : Group T, s ≠ Group.into v) →
      Group.tryFrom s = .error ⟨"Group"⟩)
    ∧ (∀ (A T : Type) (v : Def T),
      Def.tryFrom (Def.into v : Shape A T) = .ok v)
    ∧ (∀ (A T : Type) (s : Shape A T), (∀ v : Def T, s ≠ Def.into v) →
      Def.tryFrom s = .error ⟨"Def"⟩)
    ∧ (∀ (A T : Type) (v : Foreign),
      Foreign.tryFrom (Foreign.into v : Shape A T) = .ok v)
    ∧ (∀ (A T : Type) (s : Shape A T), (∀ v : Foreign, s ≠ Foreign.into v) →
      Foreign.tryFrom s = .error ⟨"Foreign"⟩) :=
  ⟨fun _ _ _ => rfl,
    fun _ _ s h => by cases s <;> first | rfl | exact absurd rfl (h _),
    fun _ _ _ => rfl,
    fun _ _ s h => by cases s <;> first | rfl | exact absurd rfl (h _),
    fun _ _ _ => rfl,
    fun _ _ s h => by cases s <;> first | rfl | exact absurd rfl (h _),
    fun _ _ _ => rfl,
    fun _ _ s h => by cases s <;> first | rfl | exact absurd rfl (h _),
    fun _ _ _ => rfl,
    fun _ _ s h => by cases s <;> first | rfl | exact absurd rfl (h _),
    fun _ _ _ => rfl,
    fun _ _ s h => by cases s <;> first | rfl | exact absurd rfl (h _),
    fun _ _ _ => rfl,
    fun _ _ s h => by cases s <;> first | rfl | exact absurd rfl (h _),
    fun _ _ _ => rfl,
    fun _ _ s h => by cases s <;> first | rfl | exact absurd rfl (h _),
    fun _ _ _ => rfl,
    fun _ _ s h => by cases s <;> first | rfl | exact absurd rfl (h _),
    fun _ _ _ => rfl,
    fun _ _ s h => by cases s <;> first | rfl | exact absurd rfl (h _),
    fun _ _ _ => rfl,
    fun _ _ s h => by cases s <;> first | rfl | exact absurd rfl (h _),
    fun _ _ _ => rfl,
    fun _ _ s h => by cases s <;> first | rfl | exact absurd rfl (h _),
    fun _ _ _ => rfl,
    fun _ _ s h => by cases s <;> first | rfl | exact absurd rfl (h _),
    fun _ _ _ => rfl,
    fun _ _ s h => by cases s <;> first | rfl | exact absurd rfl (h _),
    fun _ _ _ => rfl,
    fun _ _ s h => by cases s <;> first | rfl | exact absurd rfl (h _),
    fun _ _ _ => rfl,
    fun _ _ s h => by cases s <;> first | rfl | exact absurd rfl (h _),
    fun _ _ _ => rfl,
    fun _ _ s h => by cases s <;> first | rfl | exact absurd rfl (h _),
    fun _ _ _ => rfl,
    fun _ _ s h => by cases s <;> first | rfl | exact absurd rfl (h _),
    fun _ _ _ => rfl,
    fun _ _ s h => by cases s <;> first | rfl | exact absurd rfl (h _),
    fun _ _ _ => rfl,
    fun _ _ s h => by cases s <;> first | rfl | exact absurd rfl (h _),
    fun _ _ _ => rfl,
    fun _ _ s h => by cases s <;> first | rfl | exact absurd rfl (h _),
    fun _ _ _ => rfl,
    fun _ _ s h => by cases s <;> first | rfl | exact absurd rfl (h _),
    fun _ _ _ => rfl,
    fun _ _ s h => by cases s <;> first | rfl | exact absurd rfl (h _),
    fun _ _ _ => rfl,
    fun _ _ s h => by cases s <;> first | rfl | exact absurd rfl (h _),
    fun _ _ _ => rfl,
    fun _ _ s h => by cases s <;> first | rfl | exact absurd rfl (h _),
    fun _ _ _ => rfl,
    fun _ _ s h => by cases s <;> first | rfl | exact absurd rfl (h _),
    fun _ _ _ => rfl,
    fun _ _ s h => by cases s <;> first | rfl | exact absurd rfl (h _),
    fun _ _ _ => rfl,
    fun _ _ s h => by cases s <;> first | rfl | exact absurd rfl (h _),
    fun _ _ _ => rfl,
    fun _ _ s h => by cases s <;> first | rfl | exact absurd rfl (h _),
    fun _ _ _ => rfl,
    fun _ _ s h => by cases s <;> first | rfl | exact absurd rfl (h _),
    fun _ _ _ => rfl,
    fun _ _ s h => by cases s <;> first | rfl | exact absurd rfl (h _)⟩

/-- **C7 witness** — narrowing a `Var`-holding shape to `Var` succeeds
unchanged; narrowing it to `Cons` fails with expected `"Cons"`. -/
theorem widen_narrow_contract_witness :
    Var.tryFrom (Var.into ⟨"x"⟩ : Shape Ast Ast) = .ok ⟨"x"⟩
    ∧ Cons.tryFrom (Var.into ⟨"x"⟩ : Shape Ast Ast) = .error ⟨"Cons"⟩ :=
  ⟨widen_narrow_contract.1 Ast Ast ⟨"x"⟩,
    widen_narrow_contract.2.2.2.1 Ast Ast (Var.into ⟨"x"⟩)
      (fun v => by simp [Var.into, Cons.into])⟩

-- === Block span lemmas (C8) ===

theorem blockLinesSpanE_eq (indent : Nat) :
    ∀ lines : List (BlockLine (Option Ast)),
      blockLinesSpanE indent lines
        = (do
            let xs ← mapExcept (blockLineSpec indent) lines
            pure xs.sum)
  | [] => by simp [blockLinesSpanE, mapExcept]
  | line :: rest => by
      have ih := blockLinesSpanE_eq indent rest
      obtain ⟨elem, off⟩ := line
      cases hx : BlockLine.spanOptE ⟨elem, off⟩ with
      | error e =>
          cases elem <;>
            simp [blockLinesSpanE, mapExcept, ih, hx, blockLineSpec, charSpan,
              Bind.bind, Except.bind, pure, Except.pure]
      | ok ls =>
          cases hM : mapExcept (blockLineSpec indent) rest with
          | error e =>
              cases elem <;>
                simp [blockLinesSpanE, mapExcept, ih, hx, hM, blockLineSpec,
                  charSpan, Bind.bind, Except.bind, pure, Except.pure]
          | ok xs =>
              cases elem <;>
                simp [blockLinesSpanE, mapExcept, ih, hx, hM, blockLineSpec,
                  charSpan, Bind.bind, Except.bind, pure, Except.pure]

/-- **C8** — Block span: for every `Block` shape the computed span equals
the spec formula `(1 if not orphan else 0) + Σ(blank-line gap+1) +
(indent + first-line span) + Σ remaining lines of (1 newline +
indent-if-non-empty + line span)`, including agreement on the failure
cases. -/
theorem block_span_formula (b : Block Ast) :
    Shape.spanE (.Block b) = Block.spanSpec b
    ∧ Block.spanE b = Block.spanSpec b := by
  have key : Block.spanE b = Block.spanSpec b := by
    obtain ⟨ty, indent, empty_lines, first_line, lines, is_orphan⟩ := b
    cases hf : BlockLine.spanE first_line with
    | error e =>
        simp [Block.spanE, Block.spanSpec, blockLinesSpanE_eq, hf,
          Bind.bind, Except.bind]
    | ok first =>
        cases hM : mapExcept (blockLineSpec indent) lines with
        | error e =>
            simp [Block.spanE, Block.spanSpec, blockLinesSpanE_eq, hf, hM,
              Bind.bind, Except.bind, pure, Except.pure]
        | ok xs =>
            simp [Block.spanE, Block.spanSpec, blockLinesSpanE_eq, hf, hM,
              Bind.bind, Except.bind, pure, Except.pure]
  refine ⟨?_, key⟩
  rw [show Shape.spanE (.Block b) = Block.spanE b from by simp [Shape.spanE]]
  exact key

end Enso
